import Mathlib

/-!
Verification development for the webgo-fps simulation core.

This file gives a shallow embedding, over the real numbers, of the parts of
the game's simulation core that the correctness claims talk about:

* the enemy AI system (`EnemyAISystem`: agents, players, loot drops, the
  `damageEnemy` / `removePlayer` / `updatePatrolling` operations),
* the enhanced collision system (`EnhancedCollisionSystem`: spatial hash
  grid, sphere collision checks, the iterative `resolveCollision` loop),
* the combat system (`performRaycast`, `fireWeapon`),
* the tool system's state-sync import (`applyStateFromSync`),
* the wave enemy-count function (`getWaveEnemyCount`).

JavaScript `Map`s are modelled as insertion-ordered association lists,
`Math.random()` as an explicit stream `ℕ → ℝ` of sampled values, and
`Date.now()` as an explicit `now : ℤ` argument.  Record and function names
follow the TypeScript source.
-/

/-! ## Vectors (THREE.Vector3, the operations the embedded code uses) -/

structure Vec3 where
  x : ℝ
  y : ℝ
  z : ℝ

namespace Vec3

def add (a b : Vec3) : Vec3 := ⟨a.x + b.x, a.y + b.y, a.z + b.z⟩

def sub (a b : Vec3) : Vec3 := ⟨a.x - b.x, a.y - b.y, a.z - b.z⟩

def smul (s : ℝ) (a : Vec3) : Vec3 := ⟨s * a.x, s * a.y, s * a.z⟩

def dot (a b : Vec3) : ℝ := a.x * b.x + a.y * b.y + a.z * b.z

def lengthSq (a : Vec3) : ℝ := a.x * a.x + a.y * a.y + a.z * a.z

noncomputable def length (a : Vec3) : ℝ := Real.sqrt a.lengthSq

noncomputable def distanceTo (a b : Vec3) : ℝ := length (sub a b)

/-- `THREE.Vector3.normalize` divides by `length || 1`, so the zero vector is
returned unchanged. -/
noncomputable def normalize (a : Vec3) : Vec3 :=
  if length a = 0 then a else smul (1 / length a) a

/-- Component-wise clamp of a point into a box, as in `THREE.Box3.clampPoint`. -/
def clampPoint (lo hi p : Vec3) : Vec3 :=
  ⟨max lo.x (min p.x hi.x), max lo.y (min p.y hi.y), max lo.z (min p.z hi.z)⟩

end Vec3

/-! ## Association-list model of JavaScript `Map` (string keys) -/

/-- `Map.set`: replace the value at the first occurrence of the key, keeping
its position, else append (JS `Map` keeps insertion order). -/
def mapSet {α : Type} : List (String × α) → String → α → List (String × α)
  | [], k, v => [(k, v)]
  | (k', v') :: t, k, v =>
      if k' = k then (k, v) :: t else (k', v') :: mapSet t k v

/-- `Map.get`. -/
def mapGet {α : Type} : List (String × α) → String → Option α
  | [], _ => none
  | (k', v) :: t, k => if k' = k then some v else mapGet t k

/-- `Map.delete`. -/
def mapDel {α : Type} : List (String × α) → String → List (String × α)
  | [], _ => []
  | (k', v) :: t, k => if k' = k then t else (k', v) :: mapDel t k

/-! ## GAME_CONFIG constants used by the embedded code -/

/-- `GAME_CONFIG.PERFORMANCE.CHUNK_SIZE`, the spatial grid cell size. -/
def gridSize : ℝ := 32

/-- `GAME_CONFIG.COLLISION.MAX_COLLISION_ITERATIONS`. -/
def maxCollisionIterations : ℕ := 5

/-- `GAME_CONFIG.COLLISION.BOUNCE_DAMPING`. -/
def bounceDamping : ℝ := 0.5

/-- `GAME_CONFIG.COLLISION.TREE_COLLISION_MULTIPLIER`. -/
def treeCollisionMultiplier : ℝ := 1.2

/-- `GAME_CONFIG.COLLISION.STONE_COLLISION_MULTIPLIER`. -/
def stoneCollisionMultiplier : ℝ := 0.8

/-- `GAME_CONFIG.COLLISION.PLAYER_RADIUS`. -/
def playerRadius : ℝ := 0.5

/-- `GAME_CONFIG.ENEMY_AI.CHASE_RADIUS`. -/
def chaseRadius : ℝ := 20

/-- `GAME_CONFIG.ENEMY_AI.PATROL_RADIUS`. -/
def patrolRadius : ℝ := 10

/-- `GAME_CONFIG.ENEMY_AI.MOVEMENT_SPEED`. -/
def movementSpeed : ℝ := 2.0

/-- `GAME_CONFIG.LOOT.ENEMY_DROPS`: for each item type, its independent drop
chance and quantity range, in the source's entry order. -/
def enemyDrops : List (String × ℝ × ℤ × ℤ) :=
  [("AMMO", 0.6, 5, 15),
   ("HEALTH_KIT", 0.3, 1, 2),
   ("WOOD", 0.4, 2, 8),
   ("STONE", 0.3, 1, 5),
   ("SCRAP_METAL", 0.2, 1, 3)]

/-- `GAME_CONFIG.GAME_LOOP.MAX_WAVES`. -/
def maxWaves : ℤ := 10

/-- The literal cap `10` inside `getWaveEnemyCount` ("Cap at 10 enemies"). -/
def waveEnemyCap : ℤ := 10

/-! ## Wave enemy count (`enemy-manager.tsx`, `getWaveEnemyCount`) -/

/-- `getWaveEnemyCount(wave) = Math.min(3 + Math.floor(wave * 1.5), 10)`. -/
def getWaveEnemyCount (wave : ℤ) : ℤ :=
  min (3 + Int.floor ((wave : ℚ) * 1.5)) waveEnemyCap

/-! ## Enemy AI system (`enemy-ai-system.ts`) -/

inductive EnemyState where
  | spawning
  | patrolling
  | chasing
  | attacking
  | dead
  | respawning
deriving DecidableEq

structure Enemy where
  id : String
  position : Vec3
  rotationY : ℝ
  health : ℝ
  maxHealth : ℝ
  state : EnemyState
  target : Option Vec3
  targetPlayerId : Option String
  spawnPoint : Vec3
  lastAttackTime : ℤ
  lastUpdateTime : ℤ
  patrolTarget : Vec3
  patrolDirection : ℝ
  isAlive : Bool
  deathTime : Option ℤ
  lootDropped : Bool

structure PlayerInfo where
  id : String
  position : Vec3
  health : ℝ
  isAlive : Bool

structure LootDrop where
  id : String
  position : Vec3
  items : List (String × ℤ)
  spawnTime : ℤ

/-- The state held by the `EnemyAISystem` class: its three `Map`s. -/
structure EnemyAISystem where
  enemies : List (String × Enemy)
  players : List (String × PlayerInfo)
  lootDrops : List (String × LootDrop)

/-- The events the enemy system emits through its callbacks. -/
inductive EnemyEvent where
  | enemyDeath (enemy : Enemy) (loot : LootDrop)
  | lootSpawn (loot : LootDrop)
  | enemyAttack (enemy : Enemy) (targetId : String) (damage : ℝ)

/-- JavaScript truthiness of `enemy.targetPlayerId` (`null` and `""` are falsy). -/
def jsFalsyId : Option String → Bool
  | none => true
  | some s => s = ""

/-- `removePlayer`: drop the player, then clear it as target from every
enemy that targets it, resetting that enemy's state to PATROLLING. -/
def removePlayer (sys : EnemyAISystem) (playerId : String) : EnemyAISystem :=
  { sys with
    players := mapDel sys.players playerId
    enemies := sys.enemies.map fun p =>
      if p.2.targetPlayerId = some playerId then
        (p.1, { p.2 with targetPlayerId := none, target := none,
                         state := EnemyState.patrolling })
      else p }

/-- The item-roll loop of `createLootDrop`: for each configured drop entry,
one sample decides the independent drop chance and, on success, a second
sample picks the quantity `Math.floor(r * (max - min + 1)) + min`.  The
sample stream `rho` stands for the successive `Math.random()` calls. -/
noncomputable def rollLootItems (rho : ℕ → ℝ) : List (String × ℤ) :=
  (enemyDrops.foldl
    (fun (acc : List (String × ℤ) × ℕ) entry =>
      let chance := entry.2.1
      let lo := entry.2.2.1
      let hi := entry.2.2.2
      if rho acc.2 < chance then
        let quantity := Int.floor (rho (acc.2 + 1) * ((hi - lo + 1 : ℤ) : ℝ)) + lo
        (acc.1 ++ [(entry.1.toLower, quantity)], acc.2 + 2)
      else (acc.1, acc.2 + 1))
    ([], 0)).1

/-- `createLootDrop`: the loot id (built in the source from `Date.now()` and
a `Math.random()` suffix) is passed in as `lootId`. -/
noncomputable def createLootDrop (position : Vec3) (now : ℤ) (lootId : String)
    (rho : ℕ → ℝ) : LootDrop :=
  { id := lootId, position := position, items := rollLootItems rho, spawnTime := now }

/-- `damageEnemy`: returns the updated system, the `boolean` result of the
source method (`true` iff the hit was lethal), and the emitted events. -/
noncomputable def damageEnemy (sys : EnemyAISystem) (enemyId : String) (damage : ℝ)
    (attackerId : String) (now : ℤ) (lootId : String) (rho : ℕ → ℝ) :
    EnemyAISystem × Bool × List EnemyEvent :=
  match mapGet sys.enemies enemyId with
  | none => (sys, false, [])
  | some enemy =>
    if enemy.isAlive = false then (sys, false, [])
    else
      let health' := enemy.health - damage
      if health' ≤ 0 then
        let enemy' := { enemy with
          health := 0
          isAlive := false
          state := EnemyState.dead
          deathTime := some now }
        let loot := createLootDrop enemy.position now lootId rho
        ({ sys with enemies := mapSet sys.enemies enemyId enemy',
                    lootDrops := mapSet sys.lootDrops loot.id loot },
         true,
         [EnemyEvent.enemyDeath enemy' loot, EnemyEvent.lootSpawn loot])
      else
        let e1 := { enemy with health := health' }
        let e2 :=
          if jsFalsyId e1.targetPlayerId then
            let e1' := { e1 with targetPlayerId := some attackerId }
            match mapGet sys.players attackerId with
            | some player =>
                { e1' with target := some player.position, state := EnemyState.chasing }
            | none => e1'
          else e1
        ({ sys with enemies := mapSet sys.enemies enemyId e2 }, false, [])

/-- `findNearestPlayer`: scan the players map in order, skipping dead
players, keeping the strictly closest one seen so far. -/
noncomputable def findNearestPlayer (players : List (String × PlayerInfo))
    (position : Vec3) : Option (PlayerInfo × ℝ) :=
  players.foldl
    (fun acc p =>
      if p.2.isAlive = false then acc
      else
        let distance := position.distanceTo p.2.position
        match acc with
        | none => some (p.2, distance)
        | some nearest =>
            if distance < nearest.2 then some (p.2, distance) else acc)
    none

/-- `Math.atan2`, written out by cases over the signs of its arguments. -/
noncomputable def jsAtan2 (y x : ℝ) : ℝ :=
  if x > 0 then Real.arctan (y / x)
  else if x < 0 then
    (if y ≥ 0 then Real.arctan (y / x) + Real.pi else Real.arctan (y / x) - Real.pi)
  else
    (if y > 0 then Real.pi / 2 else if y < 0 then -(Real.pi / 2) else 0)

/-- `setRandomPatrolTarget`: two samples pick an angle and a distance inside
the patrol radius around the spawn point. -/
noncomputable def setRandomPatrolTarget (enemy : Enemy) (rho : ℕ → ℝ) (i : ℕ) :
    Enemy × ℕ :=
  let angle := rho i * (Real.pi * 2)
  let distance := rho (i + 1) * patrolRadius
  ({ enemy with patrolTarget :=
      enemy.spawnPoint.add ⟨Real.cos angle * distance, 0, Real.sin angle * distance⟩ },
   i + 2)

/-- The patrol-movement tail of `updatePatrolling`: steer towards the patrol
target, re-rolling it once within distance 1 (movement is horizontal). -/
noncomputable def updatePatrollingMove (enemy : Enemy) (deltaTime : ℝ)
    (rho : ℕ → ℝ) (i : ℕ) : Enemy × ℕ :=
  let direction0 := enemy.patrolTarget.sub enemy.position
  let direction : Vec3 := { direction0 with y := 0 }
  if direction.length < (1.0 : ℝ) then
    setRandomPatrolTarget enemy rho i
  else
    let d := direction.normalize
    let moveDistance := movementSpeed * deltaTime
    ({ enemy with position := enemy.position.add (d.smul moveDistance),
                  rotationY := jsAtan2 d.x d.z }, i)

/-- `updatePatrolling`: chase the nearest live player once it is within
`CHASE_RADIUS`, else steer towards the patrol target (re-rolling it on
arrival).  Returns the updated enemy and the next sample-stream index. -/
noncomputable def updatePatrolling (enemy : Enemy)
    (players : List (String × PlayerInfo)) (deltaTime : ℝ) (rho : ℕ → ℝ) (i : ℕ) :
    Enemy × ℕ :=
  let nearest := findNearestPlayer players enemy.position
  match nearest with
  | some n =>
    if n.2 ≤ chaseRadius then
      ({ enemy with targetPlayerId := some n.1.id, target := some n.1.position,
                    state := EnemyState.chasing }, i)
    else
      updatePatrollingMove enemy deltaTime rho i
  | none => updatePatrollingMove enemy deltaTime rho i

/-! ## Enhanced collision system (`enhanced-collision-system.ts`) -/

inductive CObjType where
  | tree
  | stone
  | building
  | enemy
  | loot
deriving DecidableEq

/-- A bounding sphere: center and radius. -/
structure BSphere where
  center : Vec3
  radius : ℝ

/-- A bounding box: min and max corners. -/
structure BBox where
  lo : Vec3
  hi : Vec3

structure CollisionObject where
  id : String
  type : CObjType
  position : Vec3
  boundingBox : Option BBox
  boundingSphere : Option BSphere
  isStatic : Bool
  canStandOn : Option Bool
  height : Option ℝ

structure CollisionResult where
  hasCollision : Bool
  normal : Vec3
  penetration : ℝ
  contactPoint : Vec3
  object : Option CollisionObject

/-- The state of the `EnhancedCollisionSystem` class: the object map and the
spatial grid (cell key `"x,z"` modelled as the integer pair `(x, z)`). -/
structure EnhancedCollisionSystem where
  collisionObjects : List (String × CollisionObject)
  spatialGrid : List ((ℤ × ℤ) × List String)

def emptyCollisionSystem : EnhancedCollisionSystem := ⟨[], []⟩

/-- Add an id to a grid cell (JS `Set.add` on `spatialGrid.get(key)`,
creating the cell when absent). -/
def cellAdd : List ((ℤ × ℤ) × List String) → ℤ × ℤ → String →
    List ((ℤ × ℤ) × List String)
  | [], key, id => [(key, [id])]
  | (k, ids) :: t, key, id =>
      if k = key then (k, if id ∈ ids then ids else ids ++ [id]) :: t
      else (k, ids) :: cellAdd t key id

/-- Remove an id from a grid cell, deleting the cell once empty
(`cell.delete(id); if (cell.size === 0) spatialGrid.delete(key)`). -/
def cellDel : List ((ℤ × ℤ) × List String) → ℤ × ℤ → String →
    List ((ℤ × ℤ) × List String)
  | [], _, _ => []
  | (k, ids) :: t, key, id =>
      if k = key then
        (let ids' := ids.filter (fun i => i ≠ id)
         if ids' = [] then t else (k, ids') :: t)
      else (k, ids) :: cellDel t key id

/-- `spatialGrid.get(key)`. -/
def cellGet : List ((ℤ × ℤ) × List String) → ℤ × ℤ → Option (List String)
  | [], _ => none
  | (k, ids) :: t, key => if k = key then some ids else cellGet t key

/-- `getGridKeys`: the 3×3 block of cell keys around the position's cell,
in the source's `dx`-outer, `dz`-inner order. -/
noncomputable def getGridKeys (position : Vec3) : List (ℤ × ℤ) :=
  let x := Int.floor (position.x / gridSize)
  let z := Int.floor (position.z / gridSize)
  [(x - 1, z - 1), (x - 1, z), (x - 1, z + 1),
   (x, z - 1), (x, z), (x, z + 1),
   (x + 1, z - 1), (x + 1, z), (x + 1, z + 1)]

/-- `updateSpatialGrid`: insert the object's id into every cell of the 3×3
block around its position. -/
noncomputable def updateSpatialGrid (grid : List ((ℤ × ℤ) × List String))
    (object : CollisionObject) : List ((ℤ × ℤ) × List String) :=
  (getGridKeys object.position).foldl (fun g key => cellAdd g key object.id) grid

/-- `removeFromSpatialGrid`. -/
noncomputable def removeFromSpatialGrid (grid : List ((ℤ × ℤ) × List String))
    (object : CollisionObject) : List ((ℤ × ℤ) × List String) :=
  (getGridKeys object.position).foldl (fun g key => cellDel g key object.id) grid

/-- `updateBounds`: recompute the bounding volume for the object's type.
Fields the source does not assign in a branch are left unchanged. -/
def updateBounds (object : CollisionObject) : CollisionObject :=
  match object.type with
  | CObjType.tree =>
      { object with
        boundingSphere := some ⟨object.position, 0.5 * treeCollisionMultiplier⟩
        canStandOn := some true
        height := some 8.0 }
  | CObjType.stone =>
      { object with
        boundingSphere := some ⟨object.position, 0.8 * stoneCollisionMultiplier⟩
        canStandOn := some true
        height := some 1.5 }
  | CObjType.building =>
      { object with
        boundingBox := some ⟨object.position.sub ⟨1, 1.5, 0.1⟩,
                             object.position.add ⟨1, 1.5, 0.1⟩⟩
        canStandOn := some false }
  | CObjType.enemy =>
      { object with
        boundingSphere := some ⟨object.position, playerRadius⟩
        canStandOn := some false }
  | CObjType.loot =>
      { object with
        boundingSphere := some ⟨object.position, 0.3⟩
        canStandOn := some false }

/-- `addCollisionObject`. -/
noncomputable def addCollisionObject (st : EnhancedCollisionSystem)
    (object : CollisionObject) : EnhancedCollisionSystem :=
  { collisionObjects := mapSet st.collisionObjects object.id object
    spatialGrid := updateSpatialGrid st.spatialGrid object }

/-- `removeCollisionObject`. -/
noncomputable def removeCollisionObject (st : EnhancedCollisionSystem)
    (id : String) : EnhancedCollisionSystem :=
  match mapGet st.collisionObjects id with
  | none => st
  | some object =>
      { collisionObjects := mapDel st.collisionObjects id
        spatialGrid := removeFromSpatialGrid st.spatialGrid object }

/-- `updateCollisionObject`: remove from the grid at the old position, move,
recompute bounds, reinsert at the new position. -/
noncomputable def updateCollisionObject (st : EnhancedCollisionSystem)
    (id : String) (position : Vec3) : EnhancedCollisionSystem :=
  match mapGet st.collisionObjects id with
  | none => st
  | some object =>
      let grid1 := removeFromSpatialGrid st.spatialGrid object
      let object' := updateBounds { object with position := position }
      { collisionObjects := mapSet st.collisionObjects id object'
        spatialGrid := updateSpatialGrid grid1 object' }

/-- `getNearbyObjects`: the union (as a JS `Set`) of the 3×3 block of cells
around the query position.  The source's `radius` parameter is unused in the
method body and therefore omitted. -/
noncomputable def getNearbyObjects (st : EnhancedCollisionSystem)
    (position : Vec3) : List String :=
  (getGridKeys position).foldl
    (fun acc key =>
      match cellGet st.spatialGrid key with
      | none => acc
      | some ids => ids.foldl (fun a i => if i ∈ a then a else a ++ [i]) acc)
    []

def noCollision : CollisionResult :=
  { hasCollision := false, normal := ⟨0, 0, 0⟩, penetration := 0,
    contactPoint := ⟨0, 0, 0⟩, object := none }

/-- `checkSphereSphereCollision`. -/
noncomputable def checkSphereSphereCollision (s1 s2 : BSphere)
    (object : CollisionObject) : CollisionResult :=
  let distance := s1.center.distanceTo s2.center
  let minDistance := s1.radius + s2.radius
  if distance < minDistance then
    let normal := (s1.center.sub s2.center).normalize
    { hasCollision := true, normal := normal,
      penetration := minDistance - distance,
      contactPoint := s2.center.add (normal.smul s2.radius),
      object := some object }
  else noCollision

/-- `checkSphereBoxCollision`. -/
noncomputable def checkSphereBoxCollision (sphere : BSphere) (box : BBox)
    (object : CollisionObject) : CollisionResult :=
  let closestPoint := Vec3.clampPoint box.lo box.hi sphere.center
  let distance := sphere.center.distanceTo closestPoint
  if distance < sphere.radius then
    { hasCollision := true,
      normal := (sphere.center.sub closestPoint).normalize,
      penetration := sphere.radius - distance,
      contactPoint := closestPoint,
      object := some object }
  else noCollision

/-- `checkSphereObjectCollision`: bounding sphere first, then bounding box,
else the fallback distance test against a default object radius of 1. -/
noncomputable def checkSphereObjectCollision (sphere : BSphere)
    (object : CollisionObject) : CollisionResult :=
  match object.boundingSphere with
  | some s2 => checkSphereSphereCollision sphere s2 object
  | none =>
    match object.boundingBox with
    | some box => checkSphereBoxCollision sphere box object
    | none =>
      let distance := sphere.center.distanceTo object.position
      let minDistance := sphere.radius + 1.0
      if distance < minDistance then
        let normal := (sphere.center.sub object.position).normalize
        { hasCollision := true, normal := normal,
          penetration := minDistance - distance,
          contactPoint := object.position.add (normal.smul 1.0),
          object := some object }
      else noCollision

/-- The scan inside `checkSphereCollision`: first colliding nearby object
wins; excluded and missing ids are skipped. -/
noncomputable def firstCollision (st : EnhancedCollisionSystem) (sphere : BSphere)
    (excludeIds : List String) : List String → CollisionResult
  | [] => noCollision
  | objectId :: rest =>
      if objectId ∈ excludeIds then firstCollision st sphere excludeIds rest
      else
        match mapGet st.collisionObjects objectId with
        | none => firstCollision st sphere excludeIds rest
        | some object =>
            let collision := checkSphereObjectCollision sphere object
            if collision.hasCollision then collision
            else firstCollision st sphere excludeIds rest

/-- `checkSphereCollision`. -/
noncomputable def checkSphereCollision (st : EnhancedCollisionSystem)
    (position : Vec3) (radius : ℝ) (excludeIds : List String) : CollisionResult :=
  firstCollision st ⟨position, radius⟩ excludeIds (getNearbyObjects st position)

structure ResolveResult where
  newPosition : Vec3
  newVelocity : Vec3
  collisionOccurred : Bool

/-- The body of the `resolveCollision` iteration: push the position out along
the contact normal by `radius + penetration + 0.01`, and when the velocity
points into the surface remove its normal component and damp it. -/
noncomputable def resolveStep (radius : ℝ) (c : CollisionResult) (p v : Vec3) :
    Vec3 × Vec3 :=
  let separationDistance := radius + c.penetration + 0.01
  let p' := p.add (c.normal.smul separationDistance)
  let velocityDotNormal := v.dot c.normal
  let v' :=
    if velocityDotNormal < 0 then
      (v.sub (c.normal.smul velocityDotNormal)).smul bounceDamping
    else v
  (p', v')

/-- The bounded loop of `resolveCollision`, with the remaining iteration
budget as fuel. -/
noncomputable def resolveLoop (st : EnhancedCollisionSystem) (radius : ℝ)
    (excludeIds : List String) : ℕ → Vec3 → Vec3 → Bool → ResolveResult
  | 0, p, v, occurred => ⟨p, v, occurred⟩
  | n + 1, p, v, occurred =>
      let collision := checkSphereCollision st p radius excludeIds
      if collision.hasCollision then
        let pv := resolveStep radius collision p v
        resolveLoop st radius excludeIds n pv.1 pv.2 true
      else ⟨p, v, occurred⟩

/-- `resolveCollision` (the spec's `resolveMovement`). -/
noncomputable def resolveCollision (st : EnhancedCollisionSystem) (position : Vec3)
    (radius : ℝ) (velocity : Vec3) (excludeIds : List String) : ResolveResult :=
  resolveLoop st radius excludeIds maxCollisionIterations position velocity false

/-- `resolveLoop` instrumented with the number of collision checks performed
and whether the loop exited early through the no-collision break. -/
noncomputable def resolveLoopInstr (st : EnhancedCollisionSystem) (radius : ℝ)
    (excludeIds : List String) : ℕ → Vec3 → Vec3 → Bool →
    ResolveResult × ℕ × Bool
  | 0, p, v, occurred => (⟨p, v, occurred⟩, 0, false)
  | n + 1, p, v, occurred =>
      let collision := checkSphereCollision st p radius excludeIds
      if collision.hasCollision then
        let pv := resolveStep radius collision p v
        let r := resolveLoopInstr st radius excludeIds n pv.1 pv.2 true
        (r.1, r.2.1 + 1, r.2.2)
      else (⟨p, v, occurred⟩, 1, true)

/-- Modelled from the spec: the push-out step as claimed, moving the position
by `penetration + epsilon` only (no `radius` term); the velocity handling is
as in the source. -/
noncomputable def resolveStepSpec (radius : ℝ) (c : CollisionResult) (p v : Vec3) :
    Vec3 × Vec3 :=
  let p' := p.add (c.normal.smul (c.penetration + 0.01))
  let velocityDotNormal := v.dot c.normal
  let v' :=
    if velocityDotNormal < 0 then
      (v.sub (c.normal.smul velocityDotNormal)).smul bounceDamping
    else v
  (p', v')

/-- Modelled from the spec: `resolveCollision` with the claimed push-out. -/
noncomputable def resolveLoopSpec (st : EnhancedCollisionSystem) (radius : ℝ)
    (excludeIds : List String) : ℕ → Vec3 → Vec3 → Bool → ResolveResult
  | 0, p, v, occurred => ⟨p, v, occurred⟩
  | n + 1, p, v, occurred =>
      let collision := checkSphereCollision st p radius excludeIds
      if collision.hasCollision then
        let pv := resolveStepSpec radius collision p v
        resolveLoopSpec st radius excludeIds n pv.1 pv.2 true
      else ⟨p, v, occurred⟩

/-- Modelled from the spec: the whole claimed `resolveCollision`. -/
noncomputable def resolveCollisionSpec (st : EnhancedCollisionSystem)
    (position : Vec3) (radius : ℝ) (velocity : Vec3) (excludeIds : List String) :
    ResolveResult :=
  resolveLoopSpec st radius excludeIds maxCollisionIterations position velocity false

/-! ## Operation sequences over the collision system (for broad-phase claims) -/

/-- The public mutating operations of the collision system. -/
inductive COp where
  | add (object : CollisionObject)
  | remove (id : String)
  | update (id : String) (position : Vec3)

noncomputable def applyCOp (st : EnhancedCollisionSystem) : COp → EnhancedCollisionSystem
  | COp.add object => addCollisionObject st object
  | COp.remove id => removeCollisionObject st id
  | COp.update id position => updateCollisionObject st id position

/-- A collision-system state built by a sequence of public operations. -/
noncomputable def applyCOps (ops : List COp) : EnhancedCollisionSystem :=
  ops.foldl applyCOp emptyCollisionSystem

/-! ## Combat system (`CombatSystem` in `combat-system.ts`) -/

structure CombatHit where
  enemyId : String
  damage : ℝ
  position : Vec3
  distance : ℝ

/-- The fixed hit radius used by `performRaycast` ("Approximate enemy radius"). -/
def enemyHitRadius : ℝ := 0.8

/-- One step of the raycast scan over a live enemy, carrying the best hit so
far (`closestHit`; `closestDistance` is `∞` exactly when it is `none`). -/
noncomputable def raycastStep (origin direction : Vec3) (maxDistance damage : ℝ)
    (acc : Option CombatHit) (enemy : Enemy) : Option CombatHit :=
  let rayToEnemy := enemy.position.sub origin
  let projectionLength := rayToEnemy.dot direction
  if projectionLength < 0 then acc
  else if projectionLength > maxDistance then acc
  else
    let closestPointOnRay := origin.add (direction.smul projectionLength)
    let distanceToEnemy := closestPointOnRay.distanceTo enemy.position
    if distanceToEnemy ≤ enemyHitRadius then
      match acc with
      | none => some ⟨enemy.id, damage, closestPointOnRay, projectionLength⟩
      | some closest =>
          if projectionLength < closest.distance then
            some ⟨enemy.id, damage, closestPointOnRay, projectionLength⟩
          else acc
    else acc

noncomputable def raycastScan (origin direction : Vec3) (maxDistance damage : ℝ) :
    List Enemy → Option CombatHit → Option CombatHit
  | [], acc => acc
  | enemy :: rest, acc =>
      raycastScan origin direction maxDistance damage rest
        (raycastStep origin direction maxDistance damage acc enemy)

/-- `performRaycast`: scan the live enemies for the closest bounding-sphere
hit along the ray. -/
noncomputable def performRaycast (sys : EnemyAISystem) (origin direction : Vec3)
    (maxDistance damage : ℝ) : Option CombatHit :=
  raycastScan origin direction maxDistance damage
    ((sys.enemies.map Prod.snd).filter (fun e => e.isAlive)) none

inductive WeaponType where
  | rifle
  | shotgun
  | pistol
deriving DecidableEq

structure WeaponData where
  damage : ℝ
  range : ℝ
  accuracy : ℝ
  weaponType : WeaponType

structure BulletTrail where
  start : Vec3
  stop : Vec3

structure WeaponFireResult where
  hit : Bool
  hits : List CombatHit
  bulletTrail : BulletTrail

/-- `hits.reduce((closest, hit) => hit.distance < closest.distance ? hit : closest)`. -/
noncomputable def reduceClosest : List CombatHit → Option CombatHit
  | [] => none
  | h :: t => some (t.foldl (fun closest hit =>
      if hit.distance < closest.distance then hit else closest) h)

/-- The damage-application loop at the end of `fireWeapon`: each hit goes
through `EnemyAISystem.damageEnemy` with attacker id `"player"`.  Each call's
ambient `Date.now()` / loot id / `Math.random()` stream is drawn from
`oracles`. -/
noncomputable def applyHits (sys : EnemyAISystem) :
    List CombatHit → List (ℤ × String × (ℕ → ℝ)) → EnemyAISystem
  | [], _ => sys
  | hit :: rest, o :: os =>
      applyHits (damageEnemy sys hit.enemyId hit.damage "player" o.1 o.2.1 o.2.2).1
        rest os
  | hit :: rest, [] =>
      applyHits (damageEnemy sys hit.enemyId hit.damage "player" 0 "" (fun _ => 0)).1
        rest []

/-- `fireWeapon`: accuracy-derived spread, one ray per projectile (8 pellets
with `damage/8` each for shotguns), trail ending at the nearest hit or at max
range, then damage application through `damageEnemy`.  Returns the fire
result and the enemy system after the damage loop. -/
noncomputable def fireWeapon (sys : EnemyAISystem) (origin direction : Vec3)
    (weaponData : WeaponData) (rho : ℕ → ℝ)
    (oracles : List (ℤ × String × (ℕ → ℝ))) : WeaponFireResult × EnemyAISystem :=
  let spread := (1 - weaponData.accuracy) * 0.1
  let fireDirection0 : Vec3 :=
    ⟨direction.x + (rho 0 - 0.5) * spread,
     direction.y + (rho 1 - 0.5) * spread,
     direction.z + (rho 2 - 0.5) * spread⟩
  let fireDirection := fireDirection0.normalize
  let hits :=
    if weaponData.weaponType = WeaponType.shotgun then
      (List.range 8).foldl
        (fun acc i =>
          let pelletSpread := spread * 2
          let pd0 : Vec3 :=
            ⟨fireDirection.x + (rho (3 + 3 * i) - 0.5) * pelletSpread,
             fireDirection.y + (rho (3 + 3 * i + 1) - 0.5) * pelletSpread,
             fireDirection.z + (rho (3 + 3 * i + 2) - 0.5) * pelletSpread⟩
          let pelletDirection := pd0.normalize
          match performRaycast sys origin pelletDirection weaponData.range
              (weaponData.damage / 8) with
          | some h => acc ++ [h]
          | none => acc)
        []
    else
      match performRaycast sys origin fireDirection weaponData.range
          weaponData.damage with
      | some h => [h]
      | none => []
  let trailEnd :=
    match reduceClosest hits with
    | some closest => closest.position
    | none => origin.add (direction.smul weaponData.range)
  (⟨!hits.isEmpty, hits, ⟨origin, trailEnd⟩⟩, applyHits sys hits oracles)

/-! ## Tool system state sync (`tool-system.ts`, `applyStateFromSync`) -/

/-- A tool record as stored by `ToolSystem`.  The sync payload is untyped
(`any`) and `applyStateFromSync` copies its fields without validation, so a
field can be `undefined` (modelled as `none`) and the `type` tag is a raw
string that can be unknown.  A well-formed tool has every field present and
a `type` among `hatchet`, `pickaxe`, `shovel`. -/
structure ToolData where
  id : String
  name : Option String
  type : Option String
  durability : Option ℝ
  maxDurability : Option ℝ
  efficiency : Option ℝ
  cooldown : Option ℝ
  lastUseTime : Option ℝ
  icon : Option String

structure ToolSystem where
  tools : List (String × ToolData)

/-- `ToolSystem.applyStateFromSync`: clear the tool map, then insert every
payload entry, field by field, with no validation and no rejection. -/
def applyStateFromSync (sys : ToolSystem) (syncTools : List ToolData) : ToolSystem :=
  { tools := syncTools.foldl (fun m toolData => mapSet m toolData.id toolData) [] }

/-! ## Concrete states used by the claim witnesses and counterexamples -/

/-- A dead enemy that still records the player it was chasing when it was
killed (`damageEnemy` does not clear `targetPlayerId` on death). -/
def deadTargetingEnemy : Enemy :=
  { id := "e1", position := ⟨0, 0, 0⟩, rotationY := 0, health := 0,
    maxHealth := 100, state := EnemyState.dead, target := none,
    targetPlayerId := some "p1", spawnPoint := ⟨0, 0, 0⟩, lastAttackTime := 0,
    lastUpdateTime := 0, patrolTarget := ⟨0, 0, 0⟩, patrolDirection := 0,
    isAlive := false, deathTime := some 1000, lootDropped := false }

def sysWithDeadTargeting : EnemyAISystem :=
  { enemies := [("e1", deadTargetingEnemy)],
    players := [("p1", { id := "p1", position := ⟨5, 0, 0⟩, health := 100,
                         isAlive := true })],
    lootDrops := [] }

/-- A live patrolling enemy at the origin. -/
def patrollingEnemy : Enemy :=
  { id := "e2", position := ⟨0, 0, 0⟩, rotationY := 0, health := 100,
    maxHealth := 100, state := EnemyState.patrolling, target := none,
    targetPlayerId := none, spawnPoint := ⟨0, 0, 0⟩, lastAttackTime := 0,
    lastUpdateTime := 0, patrolTarget := ⟨0, 0, 5⟩, patrolDirection := 0,
    isAlive := true, deathTime := none, lootDropped := false }

/-- A live player at `(3, 0, 0)`. -/
def playerP1 : PlayerInfo :=
  { id := "p1", position := ⟨3, 0, 0⟩, health := 100, isAlive := true }

/-- A live player at `(-3, 0, 0)`. -/
def playerP2 : PlayerInfo :=
  { id := "p2", position := ⟨-3, 0, 0⟩, health := 100, isAlive := true }

/-- Two live players tied at distance 3 from the origin. -/
def tiedPlayers : List (String × PlayerInfo) :=
  [("p1", playerP1), ("p2", playerP2)]

/-- A live enemy with 10 health (the claim's lethal-damage scenario). -/
def lowHealthEnemy : Enemy :=
  { patrollingEnemy with id := "e5", health := 10 }

def sysLowHealth : EnemyAISystem :=
  { enemies := [("e5", lowHealthEnemy)], players := [], lootDrops := [] }

/-- A collision object at the origin with a unit bounding sphere. -/
def originSphereObject : CollisionObject :=
  { id := "o1", type := CObjType.stone, position := ⟨0, 0, 0⟩,
    boundingBox := none, boundingSphere := some ⟨⟨0, 0, 0⟩, 1⟩,
    isStatic := true, canStandOn := none, height := none }

noncomputable def sysOriginSphere : EnhancedCollisionSystem :=
  addCollisionObject emptyCollisionSystem originSphereObject

/-- A live enemy sitting at the origin, for the raycast witness. -/
def originEnemy : Enemy :=
  { patrollingEnemy with id := "e4" }

def sysOriginEnemy : EnemyAISystem :=
  { enemies := [("e4", originEnemy)], players := [], lootDrops := [] }

/-- A well-formed tool, as created by `initializeDefaultTools`. -/
def defaultHatchet : ToolData :=
  { id := "hatchet_1", name := some "Iron Hatchet", type := some "hatchet",
    durability := some 100, maxDurability := some 100, efficiency := some 1,
    cooldown := some 1000, lastUseTime := some 0, icon := some "axe" }

def toolSysBefore : ToolSystem := { tools := [("hatchet_1", defaultHatchet)] }

/-- A sync payload entry with an unknown `type` tag and missing required
fields (`undefined` in the source's untyped payload). -/
def malformedSyncTool : ToolData :=
  { id := "t9", name := none, type := some "banana", durability := none,
    maxDurability := none, efficiency := none, cooldown := none,
    lastUseTime := none, icon := none }

/-- Recognizer for death events, to count them. -/
def isDeathEvent : EnemyEvent → Bool
  | EnemyEvent.enemyDeath _ _ => true
  | _ => false

/-- Recognizer for loot-spawn events, to count them. -/
def isLootSpawnEvent : EnemyEvent → Bool
  | EnemyEvent.lootSpawn _ => true
  | _ => false

/-- The enemy record after a lethal `damageEnemy` hit. -/
def killedEnemy (e : Enemy) (now : ℤ) : Enemy :=
  { e with
    health := 0
    isAlive := false
    state := EnemyState.dead
    deathTime := some now }

/-- An enemy after `removePlayer` cleared its target. -/
def clearedTarget (e : Enemy) : Enemy :=
  { e with
    targetPlayerId := none
    target := none
    state := EnemyState.patrolling }

/-- The per-enemy effect of `removePlayer p` on the enemies map. -/
def removeTargetOf (playerId : String) (e : Enemy) : Enemy :=
  if e.targetPlayerId = some playerId then clearedTarget e else e

/-- One combined check-and-push iteration of the `resolveCollision` loop,
as a function of the position/velocity pair. -/
noncomputable def resolveStep0 (st : EnhancedCollisionSystem) (radius : ℝ)
    (excludeIds : List String) (pv : Vec3 × Vec3) : Vec3 × Vec3 :=
  resolveStep radius (checkSphereCollision st pv.1 radius excludeIds) pv.1 pv.2

/-- `k`-fold iteration of the `resolveCollision` body from a starting
position/velocity pair. -/
noncomputable def iterResolve (st : EnhancedCollisionSystem) (radius : ℝ)
    (excludeIds : List String) (pv : Vec3 × Vec3) : ℕ → Vec3 × Vec3
  | 0 => pv
  | n + 1 => resolveStep0 st radius excludeIds (iterResolve st radius excludeIds pv n)

/-- The loop body of `findNearestPlayer`, named for the proofs. -/
noncomputable def nearStep (position : Vec3) (acc : Option (PlayerInfo × ℝ))
    (p : String × PlayerInfo) : Option (PlayerInfo × ℝ) :=
  if p.2.isAlive = false then acc
  else
    let distance := position.distanceTo p.2.position
    match acc with
    | none => some (p.2, distance)
    | some nearest =>
        if distance < nearest.2 then some (p.2, distance) else acc

/-- The scalar projection of an enemy's position onto the ray
(`rayToEnemy.dot(direction)` in `performRaycast`). -/
def rayProjection (origin direction : Vec3) (enemy : Enemy) : ℝ :=
  (enemy.position.sub origin).dot direction

/-- The acceptance condition of `performRaycast` for one enemy: projection
within `[0, maxDistance]` and the closest point on the ray within the fixed
hit radius of the enemy's center. -/
noncomputable def rayHitValid (origin direction : Vec3) (maxDistance : ℝ)
    (enemy : Enemy) : Prop :=
  0 ≤ rayProjection origin direction enemy ∧
  rayProjection origin direction enemy ≤ maxDistance ∧
  (origin.add (direction.smul (rayProjection origin direction enemy))).distanceTo
    enemy.position ≤ enemyHitRadius

/-- The hit record `performRaycast` builds for an accepted enemy. -/
def mkRayHit (origin direction : Vec3) (damage : ℝ) (enemy : Enemy) : CombatHit :=
  { enemyId := enemy.id, damage := damage,
    position := origin.add (direction.smul (rayProjection origin direction enemy)),
    distance := rayProjection origin direction enemy }

/-- The cell of the spatial grid containing a position. -/
noncomputable def gridCell (position : Vec3) : ℤ × ℤ :=
  (Int.floor (position.x / gridSize), Int.floor (position.z / gridSize))

/-- An id is recorded in a given cell of the spatial grid. -/
def idInCell (grid : List ((ℤ × ℤ) × List String)) (key : ℤ × ℤ)
    (id : String) : Prop :=
  ∃ ids, cellGet grid key = some ids ∧ id ∈ ids

/-- The invariant connecting the object map and the spatial grid: keys are
unique, each stored object's `id` field is its key, and every stored object's
id is recorded in the grid cell of its current position. -/
def gridInvariant (st : EnhancedCollisionSystem) : Prop :=
  (st.collisionObjects.map Prod.fst).Nodup ∧
  (∀ id o, mapGet st.collisionObjects id = some o → o.id = id) ∧
  (∀ id o, mapGet st.collisionObjects id = some o →
    idInCell st.spatialGrid (gridCell o.position) id)

/-! # Theorems -/

/-! ## Map lemmas -/

theorem mapGet_mapSet_self {α : Type} (m : List (String × α)) (k : String) (v : α) :
    mapGet (mapSet m k v) k = some v := by
  induction m with
  | nil => simp [mapSet, mapGet]
  | cons a t ih =>
      obtain ⟨k', v'⟩ := a
      by_cases h : k' = k
      · simp [mapSet, mapGet, h]
      · simp [mapSet, mapGet, h, ih]

theorem mapGet_mapSet_ne {α : Type} (m : List (String × α)) (k k' : String) (v : α)
    (h : k' ≠ k) : mapGet (mapSet m k v) k' = mapGet m k' := by
  have hk : ¬ k = k' := fun hh => h hh.symm
  induction m with
  | nil => simp [mapSet, mapGet, hk]
  | cons a t ih =>
      obtain ⟨k0, v0⟩ := a
      by_cases h0 : k0 = k
      · subst h0
        simp [mapSet, mapGet, hk]
      · by_cases h1 : k0 = k'
        · simp [mapSet, mapGet, h0, h1, h]
        · simp [mapSet, mapGet, h0, h1, ih]

theorem mapGet_mapSet_cases {α : Type} (m : List (String × α)) (k k' : String)
    (v v' : α) (h : mapGet (mapSet m k v) k' = some v') :
    (k' = k ∧ v' = v) ∨ (k' ≠ k ∧ mapGet m k' = some v') := by
  by_cases hk : k' = k
  · subst hk
    rw [mapGet_mapSet_self] at h
    exact Or.inl ⟨rfl, (Option.some.injEq _ _ ▸ h).symm⟩
  · exact Or.inr ⟨hk, by rwa [mapGet_mapSet_ne m k k' v hk] at h⟩

theorem mapSet_length_fresh {α : Type} (m : List (String × α)) (k : String) (v : α)
    (h : mapGet m k = none) : (mapSet m k v).length = m.length + 1 := by
  induction m with
  | nil => simp [mapSet]
  | cons a t ih =>
      obtain ⟨k0, v0⟩ := a
      by_cases h0 : k0 = k
      · simp [mapGet, h0] at h
      · simp only [mapGet, if_neg h0] at h
        simp [mapSet, if_neg h0, ih h]

theorem mapGet_mapDel_ne {α : Type} (m : List (String × α)) (k k' : String)
    (h : k' ≠ k) : mapGet (mapDel m k) k' = mapGet m k' := by
  have hk : ¬ k = k' := fun hh => h hh.symm
  induction m with
  | nil => simp [mapDel]
  | cons a t ih =>
      obtain ⟨k0, v0⟩ := a
      by_cases h0 : k0 = k
      · subst h0
        simp [mapDel, mapGet, hk]
      · simp [mapDel, mapGet, h0, ih]

theorem mapGet_map_value {α : Type} (f : α → α) (m : List (String × α)) (k : String) :
    mapGet (m.map fun p => (p.1, f p.2)) k = (mapGet m k).map f := by
  induction m with
  | nil => simp [mapGet]
  | cons a t ih =>
      obtain ⟨k0, v0⟩ := a
      by_cases h0 : k0 = k
      · simp [mapGet, h0]
      · simp [mapGet, h0, ih]

/-! ## C9: wave enemy count is monotone and capped -/

/-- C9: for every wave number `N` from 1 to the maximum wave count, the wave
target enemy count satisfies `target(N+1) ≥ target(N)`, and `target(N)` never
exceeds the cap of 10 enemies. -/
theorem getWaveEnemyCount_monotone_capped (n : ℤ) (h1 : 1 ≤ n) (h2 : n ≤ maxWaves) :
    getWaveEnemyCount n ≤ getWaveEnemyCount (n + 1) ∧
    getWaveEnemyCount n ≤ waveEnemyCap := by
  constructor
  · apply min_le_min _ le_rfl
    have : ((n : ℚ)) * 1.5 ≤ ((n + 1 : ℤ) : ℚ) * 1.5 := by
      push_cast
      linarith
    exact add_le_add le_rfl (Int.floor_le_floor this)
  · exact min_le_right _ _

theorem getWaveEnemyCount_monotone_capped_witness :
    (1 ≤ (3 : ℤ) ∧ (3 : ℤ) ≤ maxWaves) ∧
    (getWaveEnemyCount 3 ≤ getWaveEnemyCount 4 ∧ getWaveEnemyCount 3 ≤ waveEnemyCap) :=
  ⟨⟨by decide, by decide⟩, getWaveEnemyCount_monotone_capped 3 (by decide) (by decide)⟩

/-! ## C1: the health-0 iff DEAD invariant is broken by removePlayer -/

/-- C1: a dead agent (health 0, state DEAD) that still records the removed
player as its target is moved to state PATROLLING by `removePlayer` while its
health stays 0, so `removePlayer` does not preserve the claimed equivalence
`health == 0 ⇔ state == DEAD`. -/
theorem removePlayer_breaks_dead_invariant :
    ∃ e', mapGet (removePlayer sysWithDeadTargeting "p1").enemies "e1" = some e' ∧
      e'.health = 0 ∧ e'.state = EnemyState.patrolling ∧
      e'.state ≠ EnemyState.dead := by
  refine ⟨clearedTarget deadTargetingEnemy, ?_, rfl, rfl, by decide⟩
  rfl

/-! ## C8: the sync import applies unvalidated payloads instead of rejecting -/

/-- C8: `applyStateFromSync` does not reject a payload whose entry is missing
required fields and carries an unknown `type` tag: it clears the previous
tools (the default hatchet is gone) and stores the malformed entry verbatim,
so the state is changed rather than left intact. -/
theorem applyStateFromSync_no_validation :
    mapGet toolSysBefore.tools "hatchet_1" = some defaultHatchet ∧
    mapGet (applyStateFromSync toolSysBefore [malformedSyncTool]).tools "hatchet_1"
      = none ∧
    mapGet (applyStateFromSync toolSysBefore [malformedSyncTool]).tools "t9"
      = some malformedSyncTool ∧
    malformedSyncTool.type = some "banana" ∧
    malformedSyncTool.durability = none :=
  ⟨rfl, rfl, rfl, rfl, rfl⟩

/-! ## C10: removePlayer clears the removed player from every enemy -/

/-- C10: after `removePlayer p`, no enemy targets `p`; every enemy that was
targeting `p` (whatever its state, DEAD included) has its target cleared and
its state reset to PATROLLING, and every other enemy is unchanged. -/
theorem removePlayer_clears_targets (sys : EnemyAISystem) (playerId : String) :
    (∀ eid e', mapGet (removePlayer sys playerId).enemies eid = some e' →
      e'.targetPlayerId ≠ some playerId) ∧
    (∀ eid e, mapGet sys.enemies eid = some e →
      (e.targetPlayerId = some playerId →
        mapGet (removePlayer sys playerId).enemies eid =
          some (clearedTarget e)) ∧
      (e.targetPlayerId ≠ some playerId →
        mapGet (removePlayer sys playerId).enemies eid = some e)) := by
  have hmap : (removePlayer sys playerId).enemies =
      sys.enemies.map fun p => (p.1, removeTargetOf playerId p.2) := by
    simp only [removePlayer]
    congr 1
    funext p
    by_cases h : p.2.targetPlayerId = some playerId
    · simp [removeTargetOf, clearedTarget, h]
    · simp [removeTargetOf, h]
  have hget : ∀ eid, mapGet (removePlayer sys playerId).enemies eid =
      (mapGet sys.enemies eid).map (removeTargetOf playerId) := by
    intro eid
    rw [hmap]
    exact mapGet_map_value (removeTargetOf playerId) sys.enemies eid
  constructor
  · intro eid e' he'
    rw [hget] at he'
    obtain ⟨e, he, rfl⟩ := Option.map_eq_some'.mp he'
    by_cases h : e.targetPlayerId = some playerId
    · simp [removeTargetOf, clearedTarget, h]
    · simpa [removeTargetOf, h] using h
  · intro eid e he
    constructor
    · intro h
      rw [hget, he]
      simp [removeTargetOf, h]
    · intro h
      rw [hget, he]
      simp [removeTargetOf, h]

theorem removePlayer_clears_targets_witness :
    mapGet sysWithDeadTargeting.enemies "e1" = some deadTargetingEnemy ∧
    mapGet (removePlayer sysWithDeadTargeting "p1").enemies "e1" =
      some (clearedTarget deadTargetingEnemy) :=
  ⟨rfl, ((removePlayer_clears_targets sysWithDeadTargeting "p1").2 "e1"
      deadTargetingEnemy rfl).1 rfl⟩

/-! ## C5: lethal damage -/

/-- C5: lethal `damageEnemy` on a live agent clamps health to exactly 0, sets
state DEAD and `isAlive = false`, records the death time, creates exactly one
loot drop (with items rolled per the configured drop chances and quantity
ranges, as embedded in `createLootDrop`), emits exactly one death event and
one loot-spawn event, and returns `true`. -/
theorem damageEnemy_lethal (sys : EnemyAISystem) (enemyId : String) (e : Enemy)
    (damage : ℝ) (attackerId : String) (now : ℤ) (lootId : String) (rho : ℕ → ℝ)
    (he : mapGet sys.enemies enemyId = some e) (halive : e.isAlive = true)
    (hlethal : e.health - damage ≤ 0)
    (hfresh : mapGet sys.lootDrops lootId = none) :
    (damageEnemy sys enemyId damage attackerId now lootId rho).2.1 = true ∧
    mapGet (damageEnemy sys enemyId damage attackerId now lootId rho).1.enemies
      enemyId = some (killedEnemy e now) ∧
    (killedEnemy e now).health = 0 ∧
    (killedEnemy e now).state = EnemyState.dead ∧
    (killedEnemy e now).isAlive = false ∧
    (killedEnemy e now).deathTime = some now ∧
    (damageEnemy sys enemyId damage attackerId now lootId rho).1.lootDrops =
      mapSet sys.lootDrops lootId (createLootDrop e.position now lootId rho) ∧
    (damageEnemy sys enemyId damage attackerId now lootId rho).1.lootDrops.length
      = sys.lootDrops.length + 1 ∧
    (damageEnemy sys enemyId damage attackerId now lootId rho).2.2 =
      [EnemyEvent.enemyDeath (killedEnemy e now)
         (createLootDrop e.position now lootId rho),
       EnemyEvent.lootSpawn (createLootDrop e.position now lootId rho)] ∧
    ((damageEnemy sys enemyId damage attackerId now lootId rho).2.2.countP
      isDeathEvent) = 1 ∧
    ((damageEnemy sys enemyId damage attackerId now lootId rho).2.2.countP
      isLootSpawnEvent) = 1 := by
  have hres : damageEnemy sys enemyId damage attackerId now lootId rho =
      ({ sys with
          enemies := mapSet sys.enemies enemyId (killedEnemy e now),
          lootDrops := mapSet sys.lootDrops lootId
            (createLootDrop e.position now lootId rho) },
       true,
       [EnemyEvent.enemyDeath (killedEnemy e now)
          (createLootDrop e.position now lootId rho),
        EnemyEvent.lootSpawn (createLootDrop e.position now lootId rho)]) := by
    simp only [damageEnemy, he, halive]
    rw [if_neg (by simp), if_pos hlethal]
    simp [killedEnemy, createLootDrop]
  rw [hres]
  refine ⟨rfl, mapGet_mapSet_self _ _ _, rfl, rfl, rfl, rfl, rfl,
    mapSet_length_fresh _ _ _ hfresh, rfl, rfl, rfl⟩

theorem damageEnemy_lethal_witness :
    (lowHealthEnemy.health = 10 ∧ lowHealthEnemy.health - 25 ≤ 0 ∧
      lowHealthEnemy.isAlive = true) ∧
    (damageEnemy sysLowHealth "e5" 25 "att" 7 "L1" (fun _ => 0)).2.1 = true ∧
    mapGet (damageEnemy sysLowHealth "e5" 25 "att" 7 "L1" (fun _ => 0)).1.enemies
      "e5" = some (killedEnemy lowHealthEnemy 7) :=
  ⟨⟨rfl, by norm_num [lowHealthEnemy, patrollingEnemy], rfl⟩,
   (damageEnemy_lethal sysLowHealth "e5" lowHealthEnemy 25 "att" 7 "L1"
      (fun _ => 0) rfl rfl (by norm_num [lowHealthEnemy, patrollingEnemy]) rfl).1,
   (damageEnemy_lethal sysLowHealth "e5" lowHealthEnemy 25 "att" 7 "L1"
      (fun _ => 0) rfl rfl (by norm_num [lowHealthEnemy, patrollingEnemy]) rfl).2.1⟩

/-! ## Loop lemmas for resolveCollision -/

theorem resolveLoop_succ (st : EnhancedCollisionSystem) (radius : ℝ)
    (excludeIds : List String) (n : ℕ) (p v : Vec3) (occurred : Bool) :
    resolveLoop st radius excludeIds (n + 1) p v occurred =
      (if (checkSphereCollision st p radius excludeIds).hasCollision then
        resolveLoop st radius excludeIds n
          (resolveStep0 st radius excludeIds (p, v)).1
          (resolveStep0 st radius excludeIds (p, v)).2 true
      else ⟨p, v, occurred⟩) := rfl

theorem resolveLoopSpec_succ (st : EnhancedCollisionSystem) (radius : ℝ)
    (excludeIds : List String) (n : ℕ) (p v : Vec3) (occurred : Bool) :
    resolveLoopSpec st radius excludeIds (n + 1) p v occurred =
      (if (checkSphereCollision st p radius excludeIds).hasCollision then
        resolveLoopSpec st radius excludeIds n
          (resolveStepSpec radius (checkSphereCollision st p radius excludeIds) p v).1
          (resolveStepSpec radius (checkSphereCollision st p radius excludeIds) p v).2
          true
      else ⟨p, v, occurred⟩) := rfl

theorem resolveLoopInstr_succ (st : EnhancedCollisionSystem) (radius : ℝ)
    (excludeIds : List String) (n : ℕ) (p v : Vec3) (occurred : Bool) :
    resolveLoopInstr st radius excludeIds (n + 1) p v occurred =
      (if (checkSphereCollision st p radius excludeIds).hasCollision then
        ((resolveLoopInstr st radius excludeIds n
            (resolveStep0 st radius excludeIds (p, v)).1
            (resolveStep0 st radius excludeIds (p, v)).2 true).1,
         (resolveLoopInstr st radius excludeIds n
            (resolveStep0 st radius excludeIds (p, v)).1
            (resolveStep0 st radius excludeIds (p, v)).2 true).2.1 + 1,
         (resolveLoopInstr st radius excludeIds n
            (resolveStep0 st radius excludeIds (p, v)).1
            (resolveStep0 st radius excludeIds (p, v)).2 true).2.2)
      else (⟨p, v, occurred⟩, 1, true)) := rfl

theorem iterResolve_shift (st : EnhancedCollisionSystem) (radius : ℝ)
    (excludeIds : List String) (pv : Vec3 × Vec3) (j : ℕ) :
    iterResolve st radius excludeIds pv (j + 1) =
      iterResolve st radius excludeIds (resolveStep0 st radius excludeIds pv) j := by
  induction j with
  | zero => rfl
  | succ j ih =>
      show resolveStep0 st radius excludeIds
          (iterResolve st radius excludeIds pv (j + 1)) = _
      rw [ih]
      rfl

theorem resolveLoop_iterates (st : EnhancedCollisionSystem) (radius : ℝ)
    (excludeIds : List String) :
    ∀ (fuel : ℕ) (pv : Vec3 × Vec3) (occurred : Bool),
      ∃ k ≤ fuel,
        resolveLoop st radius excludeIds fuel pv.1 pv.2 occurred =
          ⟨(iterResolve st radius excludeIds pv k).1,
           (iterResolve st radius excludeIds pv k).2,
           occurred || decide (k ≠ 0)⟩ ∧
        (∀ j < k, (checkSphereCollision st
            (iterResolve st radius excludeIds pv j).1 radius
            excludeIds).hasCollision = true) ∧
        (k < fuel → (checkSphereCollision st
            (iterResolve st radius excludeIds pv k).1 radius
            excludeIds).hasCollision = false) := by
  intro fuel
  induction fuel with
  | zero =>
      intro pv occurred
      exact ⟨0, le_rfl, by simp [resolveLoop, iterResolve], by omega, by omega⟩
  | succ n ih =>
      intro pv occurred
      by_cases hc : (checkSphereCollision st pv.1 radius excludeIds).hasCollision = true
      · obtain ⟨k', hk', heq, hall, hlast⟩ :=
          ih (resolveStep0 st radius excludeIds pv) true
        refine ⟨k' + 1, by omega, ?_, ?_, ?_⟩
        · rw [show pv.1 = (pv.1, pv.2).1 from rfl, resolveLoop_succ, if_pos hc]
          rw [show ((pv.1, pv.2) : Vec3 × Vec3) = pv from rfl]
          rw [heq, iterResolve_shift]
          simp
        · intro j hj
          cases j with
          | zero => simpa [iterResolve] using hc
          | succ j' =>
              rw [iterResolve_shift]
              exact hall j' (by omega)
        · intro hlt
          rw [iterResolve_shift]
          exact hlast (by omega)
      · refine ⟨0, by omega, ?_, by omega, ?_⟩
        · rw [show pv.1 = (pv.1, pv.2).1 from rfl, resolveLoop_succ, if_neg hc]
          simp [iterResolve]
        · intro _
          simpa [iterResolve] using Bool.not_eq_true _ |>.mp hc

/-! ## C2 (amended): the resolveCollision iteration -/

/-- C2, amended: `resolveCollision` performs `k ≤ 5` iterations of the loop
body `resolveStep` — which pushes the position out along the contact normal
by `radius + penetration + 0.01` (not `penetration + 0.01`) and, when the
velocity points into the surface, removes its normal component and applies
the damping scalar — where every executed iteration was triggered by a found
collision, the loop exits early exactly when a re-test finds no collision,
and `collisionOccurred` records whether any iteration ran. -/
theorem resolveCollision_steps (st : EnhancedCollisionSystem) (position : Vec3)
    (radius : ℝ) (velocity : Vec3) (excludeIds : List String) :
    ∃ k ≤ maxCollisionIterations,
      resolveCollision st position radius velocity excludeIds =
        ⟨(iterResolve st radius excludeIds (position, velocity) k).1,
         (iterResolve st radius excludeIds (position, velocity) k).2,
         decide (k ≠ 0)⟩ ∧
      (∀ j < k, (checkSphereCollision st
          (iterResolve st radius excludeIds (position, velocity) j).1 radius
          excludeIds).hasCollision = true) ∧
      (k < maxCollisionIterations → (checkSphereCollision st
          (iterResolve st radius excludeIds (position, velocity) k).1 radius
          excludeIds).hasCollision = false) := by
  obtain ⟨k, hk, heq, hall, hlast⟩ :=
    resolveLoop_iterates st radius excludeIds maxCollisionIterations
      (position, velocity) false
  exact ⟨k, hk, by simpa [resolveCollision] using heq, hall, hlast⟩

/-! ## C7: termination and bound of resolveCollision -/

/-- C7: the `resolveCollision` loop performs at most
`MAX_COLLISION_ITERATIONS = 5` collision checks, and whenever it exits early
through the no-collision break, the sphere collision check at the returned
position (same radius and exclusions) reports no collision; the instrumented
loop computes exactly `resolveCollision`. -/
theorem resolveCollision_terminates_bounded (st : EnhancedCollisionSystem)
    (position : Vec3) (radius : ℝ) (velocity : Vec3) (excludeIds : List String) :
    (resolveLoopInstr st radius excludeIds maxCollisionIterations position
        velocity false).2.1 ≤ maxCollisionIterations ∧
    ((resolveLoopInstr st radius excludeIds maxCollisionIterations position
        velocity false).2.2 = true →
      (checkSphereCollision st
        (resolveLoopInstr st radius excludeIds maxCollisionIterations position
          velocity false).1.newPosition radius excludeIds).hasCollision = false) ∧
    resolveCollision st position radius velocity excludeIds =
      (resolveLoopInstr st radius excludeIds maxCollisionIterations position
        velocity false).1 := by
  have main : ∀ (fuel : ℕ) (p v : Vec3) (occurred : Bool),
      (resolveLoopInstr st radius excludeIds fuel p v occurred).2.1 ≤ fuel ∧
      ((resolveLoopInstr st radius excludeIds fuel p v occurred).2.2 = true →
        (checkSphereCollision st
          (resolveLoopInstr st radius excludeIds fuel p v
            occurred).1.newPosition radius excludeIds).hasCollision = false) ∧
      resolveLoop st radius excludeIds fuel p v occurred =
        (resolveLoopInstr st radius excludeIds fuel p v occurred).1 := by
    intro fuel
    induction fuel with
    | zero =>
        intro p v occurred
        exact ⟨le_rfl, by simp [resolveLoopInstr], rfl⟩
    | succ n ih =>
        intro p v occurred
        by_cases hc : (checkSphereCollision st p radius excludeIds).hasCollision = true
        · obtain ⟨hb, he, hl⟩ := ih (resolveStep0 st radius excludeIds (p, v)).1
            (resolveStep0 st radius excludeIds (p, v)).2 true
          refine ⟨?_, ?_, ?_⟩
          · rw [resolveLoopInstr_succ, if_pos hc]
            simpa using Nat.add_le_add_right hb 1
          · rw [resolveLoopInstr_succ, if_pos hc]
            exact he
          · rw [resolveLoop_succ, if_pos hc, resolveLoopInstr_succ, if_pos hc]
            exact hl
        · refine ⟨?_, ?_, ?_⟩
          · rw [resolveLoopInstr_succ, if_neg hc]
            simp
          · rw [resolveLoopInstr_succ, if_neg hc]
            intro _
            exact Bool.not_eq_true _ |>.mp hc
          · rw [resolveLoop_succ, if_neg hc, resolveLoopInstr_succ, if_neg hc]
  exact main maxCollisionIterations position velocity false

/-! ## Concrete evaluation of the collision system near the origin -/

theorem floor_div_gridSize_eq_zero (r : ℝ) (h0 : 0 ≤ r) (h1 : r < 32) :
    Int.floor (r / gridSize) = 0 := by
  rw [gridSize, Int.floor_eq_zero_iff, Set.mem_Ico]
  constructor
  · positivity
  · rw [div_lt_one (by norm_num)]
    linarith

theorem sysOriginSphere_objects :
    sysOriginSphere.collisionObjects = [("o1", originSphereObject)] := by
  simp [sysOriginSphere, addCollisionObject, emptyCollisionSystem, mapSet,
    originSphereObject]

theorem sysOriginSphere_grid :
    sysOriginSphere.spatialGrid =
      [((-1, -1), ["o1"]), ((-1, 0), ["o1"]), ((-1, 1), ["o1"]),
       ((0, -1), ["o1"]), ((0, 0), ["o1"]), ((0, 1), ["o1"]),
       ((1, -1), ["o1"]), ((1, 0), ["o1"]), ((1, 1), ["o1"])] := by
  have h0 : Int.floor ((0 : ℝ) / gridSize) = 0 := by
    norm_num [gridSize]
  simp [sysOriginSphere, addCollisionObject, emptyCollisionSystem,
    updateSpatialGrid, getGridKeys, originSphereObject, h0, cellAdd]

theorem getNearby_sysOriginSphere (q : Vec3)
    (hx : Int.floor (q.x / gridSize) = 0) (hz : Int.floor (q.z / gridSize) = 0) :
    getNearbyObjects sysOriginSphere q = ["o1"] := by
  simp [getNearbyObjects, getGridKeys, hx, hz, sysOriginSphere_grid, cellGet]

theorem dist_x_axis (x1 x2 : ℝ) (h : x2 ≤ x1) :
    Vec3.distanceTo ⟨x1, 0, 0⟩ ⟨x2, 0, 0⟩ = x1 - x2 := by
  have hsub : Vec3.sub ⟨x1, 0, 0⟩ ⟨x2, 0, 0⟩ = ⟨x1 - x2, 0, 0⟩ := by
    simp [Vec3.sub]
  rw [Vec3.distanceTo, hsub]
  simp only [Vec3.length, Vec3.lengthSq]
  rw [show (x1 - x2) * (x1 - x2) + 0 * 0 + 0 * 0 = (x1 - x2) ^ 2 by ring,
    Real.sqrt_sq (by linarith)]

theorem normalize_x_axis (d : ℝ) (h : 0 < d) :
    Vec3.normalize ⟨d, 0, 0⟩ = ⟨1, 0, 0⟩ := by
  have hlen : Vec3.length ⟨d, 0, 0⟩ = d := by
    simp only [Vec3.length, Vec3.lengthSq]
    rw [show d * d + 0 * 0 + 0 * 0 = d ^ 2 by ring, Real.sqrt_sq h.le]
  rw [Vec3.normalize, hlen, if_neg h.ne']
  simp [Vec3.smul, Vec3.mk.injEq]
  field_simp

theorem checkSphere_origin_hit :
    checkSphereCollision sysOriginSphere ⟨0.5, 0, 0⟩ 0.5 [] =
      { hasCollision := true, normal := ⟨1, 0, 0⟩, penetration := 1,
        contactPoint := ⟨1, 0, 0⟩, object := some originSphereObject } := by
  have hx : Int.floor ((0.5 : ℝ) / gridSize) = 0 :=
    floor_div_gridSize_eq_zero 0.5 (by norm_num) (by norm_num)
  have hz : Int.floor ((0 : ℝ) / gridSize) = 0 := by norm_num [gridSize]
  have hd : Vec3.distanceTo ⟨0.5, 0, 0⟩ ⟨0, 0, 0⟩ = 0.5 := by
    simpa using dist_x_axis 0.5 0 (by norm_num)
  have hn : Vec3.normalize ⟨(0.5 : ℝ), 0, 0⟩ = ⟨1, 0, 0⟩ :=
    normalize_x_axis 0.5 (by norm_num)
  have hlt : (0.5 : ℝ) < 0.5 + 1 := by norm_num
  rw [checkSphereCollision, getNearby_sysOriginSphere _ hx hz]
  simp [firstCollision, sysOriginSphere_objects, mapGet,
    checkSphereObjectCollision, originSphereObject, checkSphereSphereCollision,
    hd, hn, hlt, Vec3.sub, Vec3.add, Vec3.smul]

theorem checkSphere_origin_far (a : ℝ) (h0 : 0 ≤ a) (h1 : a < 32)
    (h2 : ¬ a < 1.5) :
    checkSphereCollision sysOriginSphere ⟨a, 0, 0⟩ 0.5 [] = noCollision := by
  have hx : Int.floor (a / gridSize) = 0 := floor_div_gridSize_eq_zero a h0 h1
  have hz : Int.floor ((0 : ℝ) / gridSize) = 0 := by norm_num [gridSize]
  have hd : Vec3.distanceTo ⟨a, 0, 0⟩ ⟨0, 0, 0⟩ = a := by
    simpa using dist_x_axis a 0 h0
  have hnot : ¬ a < 0.5 + 1 := by
    intro hcon
    apply h2
    norm_num
    linarith
  rw [checkSphereCollision, getNearby_sysOriginSphere _ hx hz]
  simp [firstCollision, sysOriginSphere_objects, mapGet,
    checkSphereObjectCollision, originSphereObject, checkSphereSphereCollision,
    hd, hnot]

/-! ## C2: counterexample to the claimed push-out distance -/

theorem resolveStep0_origin_eval :
    resolveStep0 sysOriginSphere 0.5 [] (⟨0.5, 0, 0⟩, ⟨-1, 0, 0⟩) =
      (⟨2.01, 0, 0⟩, ⟨0, 0, 0⟩) := by
  rw [resolveStep0]
  simp only [checkSphere_origin_hit, resolveStep]
  norm_num [Vec3.dot, Vec3.smul, Vec3.add, Vec3.sub, bounceDamping]

/-- C2 counterexample: with a unit-sphere obstacle at the origin and the
player sphere (radius 0.5) at x = 0.5, the code pushes the position to
x = 2.01 (`radius + penetration + 0.01` beyond the contact normal), while
the claimed rule (`penetration + epsilon` only) would yield x = 1.51; the
two results differ, so the claim as stated is false of the code. -/
theorem resolveCollision_pushout_counterexample :
    (resolveCollision sysOriginSphere ⟨0.5, 0, 0⟩ 0.5 ⟨-1, 0, 0⟩ []).newPosition =
      (⟨2.01, 0, 0⟩ : Vec3) ∧
    (resolveCollisionSpec sysOriginSphere ⟨0.5, 0, 0⟩ 0.5 ⟨-1, 0, 0⟩ []).newPosition =
      (⟨1.51, 0, 0⟩ : Vec3) ∧
    (⟨2.01, 0, 0⟩ : Vec3) ≠ (⟨1.51, 0, 0⟩ : Vec3) := by
  have hcond : (checkSphereCollision sysOriginSphere ⟨0.5, 0, 0⟩ 0.5 []).hasCollision
      = true := by
    rw [checkSphere_origin_hit]
  have hfar1 : checkSphereCollision sysOriginSphere ⟨2.01, 0, 0⟩ 0.5 [] = noCollision :=
    checkSphere_origin_far 2.01 (by norm_num) (by norm_num) (by norm_num)
  have hfar2 : checkSphereCollision sysOriginSphere ⟨1.51, 0, 0⟩ 0.5 [] = noCollision :=
    checkSphere_origin_far 1.51 (by norm_num) (by norm_num) (by norm_num)
  refine ⟨?_, ?_, ?_⟩
  · rw [resolveCollision, show maxCollisionIterations = 4 + 1 from rfl,
      resolveLoop_succ, if_pos hcond, resolveStep0_origin_eval]
    rw [show (4 : ℕ) = 3 + 1 from rfl, resolveLoop_succ,
      if_neg (by simp [hfar1, noCollision])]
  · have hstepSpec :
        resolveStepSpec 0.5 (checkSphereCollision sysOriginSphere ⟨0.5, 0, 0⟩ 0.5 [])
          ⟨0.5, 0, 0⟩ ⟨-1, 0, 0⟩ = (⟨1.51, 0, 0⟩, ⟨0, 0, 0⟩) := by
      simp only [checkSphere_origin_hit, resolveStepSpec]
      norm_num [Vec3.dot, Vec3.smul, Vec3.add, Vec3.sub, bounceDamping]
    rw [resolveCollisionSpec, show maxCollisionIterations = 4 + 1 from rfl,
      resolveLoopSpec_succ, if_pos hcond, hstepSpec]
    rw [show (4 : ℕ) = 3 + 1 from rfl, resolveLoopSpec_succ,
      if_neg (by simp [hfar2, noCollision])]
  · intro h
    have := congrArg Vec3.x h
    norm_num at this

theorem resolveCollision_terminates_bounded_witness :
    (checkSphereCollision sysOriginSphere
      (resolveLoopInstr sysOriginSphere 0.5 [] maxCollisionIterations ⟨5, 0, 0⟩
        ⟨0, 0, 0⟩ false).1.newPosition 0.5 []).hasCollision = false :=
  (resolveCollision_terminates_bounded sysOriginSphere ⟨5, 0, 0⟩ 0.5 ⟨0, 0, 0⟩ []).2.1
    (by
      have hfar : checkSphereCollision sysOriginSphere ⟨5, 0, 0⟩ 0.5 [] = noCollision :=
        checkSphere_origin_far 5 (by norm_num) (by norm_num) (by norm_num)
      rw [show maxCollisionIterations = 4 + 1 from rfl, resolveLoopInstr_succ,
        if_neg (by simp [hfar, noCollision])])

/-! ## C6: the chase trigger of updatePatrolling -/

theorem findNearestPlayer_eq_foldl (players : List (String × PlayerInfo))
    (position : Vec3) :
    findNearestPlayer players position = players.foldl (nearStep position) none := by
  rfl

theorem nearStep_foldl_spec (position : Vec3) (l : List (String × PlayerInfo)) :
    ∀ acc : Option (PlayerInfo × ℝ),
      (l.foldl (nearStep position) acc = none →
        acc = none ∧ ∀ q ∈ l, q.2.isAlive = false) ∧
      (∀ r, l.foldl (nearStep position) acc = some r →
        (acc = some r ∨ ∃ q ∈ l, q.2.isAlive = true ∧
          r = (q.2, position.distanceTo q.2.position)) ∧
        (∀ q ∈ l, q.2.isAlive = true →
          r.2 ≤ position.distanceTo q.2.position) ∧
        (∀ c, acc = some c → r.2 ≤ c.2)) := by
  induction l with
  | nil =>
      intro acc
      refine ⟨fun h => ⟨h, by simp⟩, fun r hr => ⟨Or.inl hr, by simp, ?_⟩⟩
      intro c hc
      simp only [List.foldl_nil] at hr
      rw [hr] at hc
      cases hc
      exact le_rfl
  | cons a t ih =>
      intro acc
      simp only [List.foldl_cons]
      by_cases halive : a.2.isAlive = false
      · have hstep : nearStep position acc a = acc := by
          rw [nearStep, if_pos halive]
        rw [hstep]
        refine ⟨fun h => ?_, fun r hr => ?_⟩
        · obtain ⟨h1, h2⟩ := (ih acc).1 h
          refine ⟨h1, fun q hq => ?_⟩
          rcases List.mem_cons.mp hq with hqa | hqt
          · rw [hqa]; exact halive
          · exact h2 q hqt
        · obtain ⟨hprov, hmin, hacc⟩ := (ih acc).2 r hr
          refine ⟨?_, fun q hq hqa => ?_, hacc⟩
          · rcases hprov with h | ⟨q, hq, hh⟩
            · exact Or.inl h
            · exact Or.inr ⟨q, List.mem_cons_of_mem a hq, hh⟩
          · rcases List.mem_cons.mp hq with hqa' | hqt
            · rw [hqa'] at hqa
              rw [hqa] at halive
              cases halive
            · exact hmin q hqt hqa
      · have halive' : a.2.isAlive = true := by
          cases h : a.2.isAlive
          · exact absurd h halive
          · rfl
        set d := position.distanceTo a.2.position with hd
        have hstep : nearStep position acc a =
            (match acc with
             | none => some (a.2, d)
             | some nearest =>
                 if d < nearest.2 then some (a.2, d) else acc) := by
          rw [nearStep, if_neg halive]
        cases hacc : acc with
        | none =>
            rw [hacc] at hstep
            simp only at hstep
            rw [hstep]
            refine ⟨fun h => ?_, fun r hr => ?_⟩
            · obtain ⟨h1, _⟩ := (ih (some (a.2, d))).1 h
              cases h1
            · obtain ⟨hprov, hmin, haccle⟩ := (ih (some (a.2, d))).2 r hr
              refine ⟨?_, fun q hq hqa => ?_, fun c hc => by cases hc⟩
              · rcases hprov with h | ⟨q, hq, hh⟩
                · cases h
                  exact Or.inr ⟨a, List.mem_cons_self a t, halive', rfl⟩
                · exact Or.inr ⟨q, List.mem_cons_of_mem a hq, hh⟩
              · rcases List.mem_cons.mp hq with hqa' | hqt
                · rw [hqa']
                  exact haccle (a.2, d) rfl
                · exact hmin q hqt hqa
        | some n =>
            rw [hacc] at hstep
            simp only at hstep
            by_cases hlt : d < n.2
            · rw [hstep, if_pos hlt]
              refine ⟨fun h => ?_, fun r hr => ?_⟩
              · obtain ⟨h1, _⟩ := (ih (some (a.2, d))).1 h
                cases h1
              · obtain ⟨hprov, hmin, haccle⟩ := (ih (some (a.2, d))).2 r hr
                refine ⟨?_, fun q hq hqa => ?_, fun c hc => ?_⟩
                · rcases hprov with h | ⟨q, hq, hh⟩
                  · cases h
                    exact Or.inr ⟨a, List.mem_cons_self a t, halive', rfl⟩
                  · exact Or.inr ⟨q, List.mem_cons_of_mem a hq, hh⟩
                · rcases List.mem_cons.mp hq with hqa' | hqt
                  · rw [hqa']
                    exact haccle (a.2, d) rfl
                  · exact hmin q hqt hqa
                · cases hc
                  exact le_of_lt (lt_of_le_of_lt (haccle (a.2, d) rfl) hlt)
            · rw [hstep, if_neg hlt]
              refine ⟨fun h => ?_, fun r hr => ?_⟩
              · obtain ⟨h1, _⟩ := (ih (some n)).1 h
                cases h1
              · obtain ⟨hprov, hmin, haccle⟩ := (ih (some n)).2 r hr
                refine ⟨?_, fun q hq hqa => ?_, fun c hc => ?_⟩
                · rcases hprov with h | ⟨q, hq, hh⟩
                  · exact Or.inl h
                  · exact Or.inr ⟨q, List.mem_cons_of_mem a hq, hh⟩
                · rcases List.mem_cons.mp hq with hqa' | hqt
                  · rw [hqa']
                    exact le_trans (haccle n rfl) (le_of_not_lt hlt)
                  · exact hmin q hqt hqa
                · cases hc
                  exact haccle n rfl

theorem dist_x_axis_abs (x1 x2 : ℝ) :
    Vec3.distanceTo ⟨x1, 0, 0⟩ ⟨x2, 0, 0⟩ = |x1 - x2| := by
  have hsub : Vec3.sub ⟨x1, 0, 0⟩ ⟨x2, 0, 0⟩ = ⟨x1 - x2, 0, 0⟩ := by
    simp [Vec3.sub]
  rw [Vec3.distanceTo, hsub]
  simp only [Vec3.length, Vec3.lengthSq]
  rw [show (x1 - x2) * (x1 - x2) + 0 * 0 + 0 * 0 = (x1 - x2) ^ 2 by ring,
    Real.sqrt_sq_eq_abs]

/-- C6 (amended): if a PATROLLING agent is ticked while some live player is
strictly inside `chaseRadius` and every other live player (by id) is
strictly farther away, then after the tick the agent is CHASING with
`targetPlayerId` equal to that player's id.  (The original claim's "no other
live player is closer" admits distance ties, under which the code picks the
first player in map order, see the counterexample.) -/
theorem updatePatrolling_chase_trigger (enemy : Enemy)
    (players : List (String × PlayerInfo)) (deltaTime : ℝ) (rho : ℕ → ℝ) (i : ℕ)
    (p : String × PlayerInfo) (hmem : p ∈ players) (halive : p.2.isAlive = true)
    (hin : enemy.position.distanceTo p.2.position < chaseRadius)
    (hclosest : ∀ q ∈ players, q.2.isAlive = true → q.2.id ≠ p.2.id →
      enemy.position.distanceTo p.2.position <
        enemy.position.distanceTo q.2.position) :
    (updatePatrolling enemy players deltaTime rho i).1.state = EnemyState.chasing ∧
    (updatePatrolling enemy players deltaTime rho i).1.targetPlayerId
      = some p.2.id := by
  cases hfold : findNearestPlayer players enemy.position with
  | none =>
      rw [findNearestPlayer_eq_foldl] at hfold
      obtain ⟨-, hall⟩ := (nearStep_foldl_spec enemy.position players none).1 hfold
      rw [hall p hmem] at halive
      cases halive
  | some r =>
      have hfold' := hfold
      rw [findNearestPlayer_eq_foldl] at hfold'
      obtain ⟨hprov, hmin, -⟩ :=
        (nearStep_foldl_spec enemy.position players none).2 r hfold'
      have hr2 : r.2 ≤ enemy.position.distanceTo p.2.position := hmin p hmem halive
      obtain ⟨q, hq, hqalive, hqeq⟩ :
          ∃ q ∈ players, q.2.isAlive = true ∧
            r = (q.2, enemy.position.distanceTo q.2.position) := by
        rcases hprov with h | h
        · cases h
        · exact h
      have hid : r.1.id = p.2.id := by
        by_contra hne
        have hlt := hclosest q hq hqalive (by rw [hqeq] at hne; exact hne)
        rw [hqeq] at hr2
        simp only at hr2
        exact absurd (lt_of_lt_of_le hlt hr2) (lt_irrefl _)
      have hle : r.2 ≤ chaseRadius := le_of_lt (lt_of_le_of_lt hr2 hin)
      constructor
      · simp only [updatePatrolling, hfold]
        rw [if_pos hle]
      · simp only [updatePatrolling, hfold]
        rw [if_pos hle]
        simpa using hid

/-- C6 counterexample: two live players tied at distance 3 from a PATROLLING
agent.  Player `p2` satisfies the claim's hypotheses — it is live, strictly
inside `chaseRadius`, and no other live player is closer — yet after the
tick the agent targets `p1` (the first player in map iteration order), not
`p2`, so the claim as stated is false of the code. -/
theorem updatePatrolling_tie_counterexample :
    (("p2", playerP2) ∈ tiedPlayers ∧
      playerP2.isAlive = true ∧
      patrollingEnemy.position.distanceTo playerP2.position < chaseRadius ∧
      (∀ q ∈ tiedPlayers, q.2.isAlive = true → q.2.id ≠ playerP2.id →
        ¬ patrollingEnemy.position.distanceTo q.2.position <
          patrollingEnemy.position.distanceTo playerP2.position)) ∧
    (updatePatrolling patrollingEnemy tiedPlayers 0.1 (fun _ => 0) 0).1.targetPlayerId
      = some "p1" ∧
    (some "p1" : Option String) ≠ some "p2" := by
  have hd1 : Vec3.distanceTo ⟨0, 0, 0⟩ ⟨3, 0, 0⟩ = 3 := by
    rw [dist_x_axis_abs]
    norm_num
  have hd2 : Vec3.distanceTo ⟨0, 0, 0⟩ ⟨-3, 0, 0⟩ = 3 := by
    rw [dist_x_axis_abs]
    norm_num
  have hpos : patrollingEnemy.position = (⟨0, 0, 0⟩ : Vec3) := rfl
  have hp2pos : playerP2.position = (⟨-3, 0, 0⟩ : Vec3) := rfl
  have hfold : findNearestPlayer tiedPlayers patrollingEnemy.position =
      some (playerP1, 3) := by
    rw [findNearestPlayer_eq_foldl, hpos]
    simp only [tiedPlayers, List.foldl_cons, List.foldl_nil, nearStep,
      playerP1, playerP2]
    norm_num [hd1, hd2]
  refine ⟨⟨?_, rfl, ?_, ?_⟩, ?_, by simp⟩
  · simp [tiedPlayers]
  · rw [hpos, hp2pos, hd2, chaseRadius]
    norm_num
  · intro q hq hqalive hqid
    rw [hpos, hp2pos, hd2]
    simp only [tiedPlayers, List.mem_cons, List.not_mem_nil, or_false] at hq
    rcases hq with hq | hq
    · rw [hq]
      simp only [playerP1]
      rw [hd1]
      exact lt_irrefl 3
    · rw [hq] at hqid
      simp [playerP2] at hqid
  · simp only [updatePatrolling, hfold]
    rw [if_pos (by rw [chaseRadius]; norm_num : (3 : ℝ) ≤ chaseRadius)]
    simp [playerP1]

theorem updatePatrolling_chase_trigger_witness :
    (updatePatrolling patrollingEnemy [("p1", playerP1)] 0.1 (fun _ => 0)
      0).1.state = EnemyState.chasing ∧
    (updatePatrolling patrollingEnemy [("p1", playerP1)] 0.1 (fun _ => 0)
      0).1.targetPlayerId = some playerP1.id :=
  updatePatrolling_chase_trigger patrollingEnemy [("p1", playerP1)]
    0.1 (fun _ => 0) 0 ("p1", playerP1)
    (by simp) rfl
    (by
      show Vec3.distanceTo patrollingEnemy.position playerP1.position < chaseRadius
      rw [show patrollingEnemy.position = (⟨0, 0, 0⟩ : Vec3) from rfl,
        show playerP1.position = (⟨3, 0, 0⟩ : Vec3) from rfl,
        dist_x_axis_abs, chaseRadius]
      norm_num)
    (by
      intro q hq hqalive hqid
      simp only [List.mem_cons, List.not_mem_nil, or_false] at hq
      rw [hq] at hqid
      simp at hqid)

/-! ## C4: the single-ray hit test -/

theorem raycastStep_none_acc (origin direction : Vec3) (maxDistance damage : ℝ)
    (e : Enemy) :
    (rayHitValid origin direction maxDistance e ∧
      raycastStep origin direction maxDistance damage none e =
        some (mkRayHit origin direction damage e)) ∨
    (¬ rayHitValid origin direction maxDistance e ∧
      raycastStep origin direction maxDistance damage none e = none) := by
  by_cases h1 : rayProjection origin direction e < 0
  · refine Or.inr ⟨fun hv => absurd h1 (not_lt.mpr hv.1), ?_⟩
    simp only [rayProjection] at h1
    simp [raycastStep, h1]
  · by_cases h2 : rayProjection origin direction e > maxDistance
    · refine Or.inr ⟨fun hv => absurd h2 (not_lt.mpr hv.2.1), ?_⟩
      simp only [rayProjection] at h1 h2
      simp [raycastStep, h1, h2]
    · by_cases h3 : (origin.add (direction.smul
          (rayProjection origin direction e))).distanceTo e.position ≤ enemyHitRadius
      · refine Or.inl ⟨⟨not_lt.mp h1, not_lt.mp h2, h3⟩, ?_⟩
        simp only [rayProjection] at h1 h2 h3
        simp [raycastStep, h1, h2, h3, mkRayHit, rayProjection]
      · refine Or.inr ⟨fun hv => absurd hv.2.2 h3, ?_⟩
        simp only [rayProjection] at h1 h2 h3
        simp [raycastStep, h1, h2, h3]

theorem raycastStep_some_acc (origin direction : Vec3) (maxDistance damage : ℝ)
    (c : CombatHit) (e : Enemy) :
    (rayHitValid origin direction maxDistance e ∧
      rayProjection origin direction e < c.distance ∧
      raycastStep origin direction maxDistance damage (some c) e =
        some (mkRayHit origin direction damage e)) ∨
    ((¬ rayHitValid origin direction maxDistance e ∨
        ¬ rayProjection origin direction e < c.distance) ∧
      raycastStep origin direction maxDistance damage (some c) e = some c) := by
  by_cases h1 : rayProjection origin direction e < 0
  · refine Or.inr ⟨Or.inl fun hv => absurd h1 (not_lt.mpr hv.1), ?_⟩
    simp only [rayProjection] at h1
    simp [raycastStep, h1]
  · by_cases h2 : rayProjection origin direction e > maxDistance
    · refine Or.inr ⟨Or.inl fun hv => absurd h2 (not_lt.mpr hv.2.1), ?_⟩
      simp only [rayProjection] at h1 h2
      simp [raycastStep, h1, h2]
    · by_cases h3 : (origin.add (direction.smul
          (rayProjection origin direction e))).distanceTo e.position ≤ enemyHitRadius
      · by_cases h4 : rayProjection origin direction e < c.distance
        · refine Or.inl ⟨⟨not_lt.mp h1, not_lt.mp h2, h3⟩, h4, ?_⟩
          simp only [rayProjection] at h1 h2 h3 h4
          simp [raycastStep, h1, h2, h3, h4, mkRayHit, rayProjection]
        · refine Or.inr ⟨Or.inr h4, ?_⟩
          simp only [rayProjection] at h1 h2 h3 h4
          simp [raycastStep, h1, h2, h3, h4]
      · refine Or.inr ⟨Or.inl fun hv => absurd hv.2.2 h3, ?_⟩
        simp only [rayProjection] at h1 h2 h3
        simp [raycastStep, h1, h2, h3]

theorem raycastScan_spec (origin direction : Vec3) (maxDistance damage : ℝ)
    (l : List Enemy) :
    ∀ acc : Option CombatHit,
      (raycastScan origin direction maxDistance damage l acc = none ↔
        acc = none ∧ ∀ e ∈ l, ¬ rayHitValid origin direction maxDistance e) ∧
      (∀ h, raycastScan origin direction maxDistance damage l acc = some h →
        (acc = some h ∨ ∃ e ∈ l, rayHitValid origin direction maxDistance e ∧
          h = mkRayHit origin direction damage e) ∧
        (∀ e ∈ l, rayHitValid origin direction maxDistance e →
          h.distance ≤ rayProjection origin direction e) ∧
        (∀ c, acc = some c → h.distance ≤ c.distance)) := by
  induction l with
  | nil =>
      intro acc
      simp only [raycastScan]
      refine ⟨by simp, fun h hr => ⟨Or.inl hr, by simp, ?_⟩⟩
      intro c hc
      rw [hr] at hc
      cases hc
      exact le_rfl
  | cons e t ih =>
      intro acc
      simp only [raycastScan]
      cases hacc : acc with
      | none =>
          rcases raycastStep_none_acc origin direction maxDistance damage e with
            ⟨hv, hstep⟩ | ⟨hv, hstep⟩
          · rw [hstep]
            refine ⟨?_, fun h hr => ?_⟩
            · constructor
              · intro h
                obtain ⟨h1, -⟩ := ((ih (some (mkRayHit origin direction damage e))).1).mp h
                cases h1
              · rintro ⟨-, hall⟩
                exact absurd hv (hall e (List.mem_cons_self e t))
            · obtain ⟨hprov, hmin, haccle⟩ :=
                (ih (some (mkRayHit origin direction damage e))).2 h hr
              refine ⟨?_, fun q hq hqv => ?_, fun c hc => by cases hc⟩
              · rcases hprov with hh | ⟨q, hq, hqv, hh⟩
                · cases hh
                  exact Or.inr ⟨e, List.mem_cons_self e t, hv, rfl⟩
                · exact Or.inr ⟨q, List.mem_cons_of_mem e hq, hqv, hh⟩
              · rcases List.mem_cons.mp hq with hqa | hqt
                · subst hqa
                  exact haccle (mkRayHit origin direction damage q) rfl
                · exact hmin q hqt hqv
          · rw [hstep]
            refine ⟨?_, fun h hr => ?_⟩
            · constructor
              · intro h
                obtain ⟨-, hall⟩ := ((ih none).1).mp h
                refine ⟨rfl, fun q hq => ?_⟩
                rcases List.mem_cons.mp hq with hqa | hqt
                · subst hqa; exact hv
                · exact hall q hqt
              · rintro ⟨-, hall⟩
                exact ((ih none).1).mpr ⟨rfl, fun q hq =>
                  hall q (List.mem_cons_of_mem e hq)⟩
            · obtain ⟨hprov, hmin, -⟩ := (ih none).2 h hr
              refine ⟨?_, fun q hq hqv => ?_, fun c hc => by cases hc⟩
              · rcases hprov with hh | ⟨q, hq, hqv, hh⟩
                · cases hh
                · exact Or.inr ⟨q, List.mem_cons_of_mem e hq, hqv, hh⟩
              · rcases List.mem_cons.mp hq with hqa | hqt
                · subst hqa; exact absurd hqv hv
                · exact hmin q hqt hqv
      | some c =>
          rcases raycastStep_some_acc origin direction maxDistance damage c e with
            ⟨hv, hlt, hstep⟩ | ⟨hor, hstep⟩
          · rw [hstep]
            refine ⟨?_, fun h hr => ?_⟩
            · constructor
              · intro h
                obtain ⟨h1, -⟩ := ((ih (some (mkRayHit origin direction damage e))).1).mp h
                cases h1
              · rintro ⟨hc0, -⟩
                cases hc0
            · obtain ⟨hprov, hmin, haccle⟩ :=
                (ih (some (mkRayHit origin direction damage e))).2 h hr
              refine ⟨?_, fun q hq hqv => ?_, fun c' hc' => ?_⟩
              · rcases hprov with hh | ⟨q, hq, hqv, hh⟩
                · cases hh
                  exact Or.inr ⟨e, List.mem_cons_self e t, hv, rfl⟩
                · exact Or.inr ⟨q, List.mem_cons_of_mem e hq, hqv, hh⟩
              · rcases List.mem_cons.mp hq with hqa | hqt
                · subst hqa
                  exact haccle (mkRayHit origin direction damage q) rfl
                · exact hmin q hqt hqv
              · cases hc'
                exact le_of_lt (lt_of_le_of_lt
                  (haccle (mkRayHit origin direction damage e) rfl) hlt)
          · rw [hstep]
            refine ⟨?_, fun h hr => ?_⟩
            · constructor
              · intro h
                obtain ⟨h1, -⟩ := ((ih (some c)).1).mp h
                cases h1
              · rintro ⟨hc0, -⟩
                cases hc0
            · obtain ⟨hprov, hmin, haccle⟩ := (ih (some c)).2 h hr
              refine ⟨?_, fun q hq hqv => ?_, fun c' hc' => ?_⟩
              · rcases hprov with hh | ⟨q, hq, hqv, hh⟩
                · exact Or.inl hh
                · exact Or.inr ⟨q, List.mem_cons_of_mem e hq, hqv, hh⟩
              · rcases List.mem_cons.mp hq with hqa | hqt
                · subst hqa
                  rcases hor with hnv | hnlt
                  · exact absurd hqv hnv
                  · exact le_trans (haccle c rfl) (le_of_not_lt hnlt)
                · exact hmin q hqt hqv
              · cases hc'
                exact haccle c rfl

/-- C4: `performRaycast` returns no hit iff no live agent passes the ray
test (projection `t` with `0 ≤ t ≤ range` and closest-point distance at most
the fixed hit radius 0.8); a returned hit is the accepted hit of some live
agent whose `t` is minimal among all accepted live agents — so agents behind
the origin or beyond range are never hit — and `fireWeapon` applies every
returned hit's damage through `damageEnemy`, the enemy system's damage entry
point. -/
theorem performRaycast_spec (sys : EnemyAISystem) (origin direction : Vec3)
    (maxDistance damage : ℝ) (weaponData : WeaponData) (rho : ℕ → ℝ)
    (oracles : List (ℤ × String × (ℕ → ℝ))) :
    (performRaycast sys origin direction maxDistance damage = none ↔
      ∀ e ∈ (sys.enemies.map Prod.snd).filter (fun e => e.isAlive),
        ¬ rayHitValid origin direction maxDistance e) ∧
    (∀ h, performRaycast sys origin direction maxDistance damage = some h →
      ∃ e ∈ (sys.enemies.map Prod.snd).filter (fun e => e.isAlive),
        rayHitValid origin direction maxDistance e ∧
        h = mkRayHit origin direction damage e ∧
        ∀ e2 ∈ (sys.enemies.map Prod.snd).filter (fun e => e.isAlive),
          rayHitValid origin direction maxDistance e2 →
            rayProjection origin direction e ≤ rayProjection origin direction e2) ∧
    (fireWeapon sys origin direction weaponData rho oracles).2 =
      applyHits sys
        (fireWeapon sys origin direction weaponData rho oracles).1.hits oracles := by
  have hspec := raycastScan_spec origin direction maxDistance damage
    ((sys.enemies.map Prod.snd).filter (fun e => e.isAlive)) none
  refine ⟨?_, ?_, rfl⟩
  · rw [performRaycast]
    rw [hspec.1]
    simp
  · intro h hr
    rw [performRaycast] at hr
    obtain ⟨hprov, hmin, -⟩ := hspec.2 h hr
    rcases hprov with hh | ⟨e, he, hev, hh⟩
    · cases hh
    · refine ⟨e, he, hev, hh, fun e2 he2 he2v => ?_⟩
      have := hmin e2 he2 he2v
      rw [hh] at this
      exact this

theorem performRaycast_spec_witness :
    ∃ e ∈ (sysOriginEnemy.enemies.map Prod.snd).filter (fun e => e.isAlive),
      rayHitValid ⟨0, 0, -10⟩ ⟨0, 0, 1⟩ 100 e ∧
      (⟨"e4", 25, ⟨0, 0, 0⟩, 10⟩ : CombatHit) = mkRayHit ⟨0, 0, -10⟩ ⟨0, 0, 1⟩ 25 e ∧
      ∀ e2 ∈ (sysOriginEnemy.enemies.map Prod.snd).filter (fun e => e.isAlive),
        rayHitValid ⟨0, 0, -10⟩ ⟨0, 0, 1⟩ 100 e2 →
          rayProjection ⟨0, 0, -10⟩ ⟨0, 0, 1⟩ e ≤
            rayProjection ⟨0, 0, -10⟩ ⟨0, 0, 1⟩ e2 :=
  (performRaycast_spec sysOriginEnemy ⟨0, 0, -10⟩ ⟨0, 0, 1⟩ 100 25
    ⟨25, 100, 1, WeaponType.rifle⟩ (fun _ => 0) []).2.1
    ⟨"e4", 25, ⟨0, 0, 0⟩, 10⟩
    (by
      have hzero : Vec3.distanceTo ⟨0, 0, 0⟩ ⟨0, 0, 0⟩ = 0 := by
        rw [dist_x_axis_abs]
        norm_num
      simp only [performRaycast, sysOriginEnemy, originEnemy, patrollingEnemy,
        List.map_cons, List.map_nil, List.filter, raycastScan, raycastStep,
        Vec3.sub, Vec3.dot, Vec3.add, Vec3.smul, enemyHitRadius]
      norm_num [hzero])

/-! ## C3: broad-phase soundness of the spatial grid -/

theorem idInCell_cellAdd_self (g : List ((ℤ × ℤ) × List String)) (k : ℤ × ℤ)
    (id : String) : idInCell (cellAdd g k id) k id := by
  induction g with
  | nil => exact ⟨[id], by simp [cellAdd, cellGet], by simp⟩
  | cons a t ih =>
      obtain ⟨k0, ids⟩ := a
      by_cases h0 : k0 = k
      · subst h0
        by_cases hmem : id ∈ ids
        · exact ⟨ids, by simp [cellAdd, cellGet, hmem], hmem⟩
        · exact ⟨ids ++ [id], by simp [cellAdd, cellGet, hmem], by simp⟩
      · obtain ⟨ids', hget, hmem⟩ := ih
        exact ⟨ids', by simp [cellAdd, cellGet, h0, hget], hmem⟩

theorem idInCell_cellAdd_mono (g : List ((ℤ × ℤ) × List String)) (k k' : ℤ × ℤ)
    (id id' : String) (h : idInCell g k id) :
    idInCell (cellAdd g k' id') k id := by
  induction g with
  | nil =>
      obtain ⟨ids, hget, -⟩ := h
      simp [cellGet] at hget
  | cons a t ih =>
      obtain ⟨k0, ids⟩ := a
      obtain ⟨ids1, hget, hmem⟩ := h
      by_cases h0 : k0 = k'
      · subst h0
        by_cases h1 : k0 = k
        · subst h1
          simp only [cellGet, if_pos rfl] at hget
          cases hget
          by_cases hmem' : id' ∈ ids
          · exact ⟨ids, by simp [cellAdd, cellGet, hmem'], hmem⟩
          · exact ⟨ids ++ [id'], by simp [cellAdd, cellGet, hmem'],
              List.mem_append_left _ hmem⟩
        · simp only [cellGet, if_neg h1] at hget
          by_cases hmem' : id' ∈ ids
          · exact ⟨ids1, by simp [cellAdd, cellGet, h1, hmem', hget], hmem⟩
          · exact ⟨ids1, by simp [cellAdd, cellGet, h1, hmem', hget], hmem⟩
      · by_cases h1 : k0 = k
        · subst h1
          simp only [cellGet, if_pos rfl] at hget
          cases hget
          exact ⟨ids, by simp [cellAdd, cellGet, h0], hmem⟩
        · simp only [cellGet, if_neg h1] at hget
          obtain ⟨ids', hget', hmem'⟩ := ih ⟨ids1, hget, hmem⟩
          exact ⟨ids', by simp [cellAdd, cellGet, h0, h1, hget'], hmem'⟩

theorem idInCell_cellDel_mono (g : List ((ℤ × ℤ) × List String)) (k k' : ℤ × ℤ)
    (id id' : String) (hne : id ≠ id') (h : idInCell g k id) :
    idInCell (cellDel g k' id') k id := by
  induction g with
  | nil =>
      obtain ⟨ids, hget, -⟩ := h
      simp [cellGet] at hget
  | cons a t ih =>
      obtain ⟨k0, ids⟩ := a
      obtain ⟨ids1, hget, hmem⟩ := h
      by_cases h0 : k0 = k'
      · subst h0
        by_cases h1 : k0 = k
        · subst h1
          simp only [cellGet, if_pos rfl] at hget
          cases hget
          have hmemf : id ∈ ids.filter (fun i => i ≠ id') := by
            rw [List.mem_filter]
            exact ⟨hmem, by simpa using hne⟩
          have hne' : ids.filter (fun i => i ≠ id') ≠ [] := by
            intro hnil
            rw [hnil] at hmemf
            cases hmemf
          refine ⟨ids.filter (fun i => i ≠ id'), ?_, hmemf⟩
          simp only [cellDel, if_pos rfl]
          rw [if_neg hne']
          simp [cellGet]
        · simp only [cellGet, if_neg h1] at hget
          by_cases hnil : ids.filter (fun i => i ≠ id') = []
          · refine ⟨ids1, ?_, hmem⟩
            simp only [cellDel, if_pos rfl]
            rw [if_pos hnil]
            exact hget
          · refine ⟨ids1, ?_, hmem⟩
            simp only [cellDel, if_pos rfl]
            rw [if_neg hnil]
            simp [cellGet, h1, hget]
      · by_cases h1 : k0 = k
        · subst h1
          simp only [cellGet, if_pos rfl] at hget
          cases hget
          exact ⟨ids, by simp [cellDel, cellGet, h0], hmem⟩
        · simp only [cellGet, if_neg h1] at hget
          obtain ⟨ids', hget', hmem'⟩ := ih ⟨ids1, hget, hmem⟩
          exact ⟨ids', by simp [cellDel, cellGet, h0, h1, hget'], hmem'⟩

theorem idInCell_foldl_cellAdd_mono (keys : List (ℤ × ℤ))
    (g : List ((ℤ × ℤ) × List String)) (k : ℤ × ℤ) (id id' : String)
    (h : idInCell g k id) :
    idInCell (keys.foldl (fun g key => cellAdd g key id') g) k id := by
  induction keys generalizing g with
  | nil => exact h
  | cons k0 t ih =>
      simp only [List.foldl_cons]
      exact ih _ (idInCell_cellAdd_mono g k k0 id id' h)

theorem idInCell_foldl_cellAdd_mem (keys : List (ℤ × ℤ))
    (g : List ((ℤ × ℤ) × List String)) (k : ℤ × ℤ) (id : String)
    (hk : k ∈ keys) :
    idInCell (keys.foldl (fun g key => cellAdd g key id) g) k id := by
  induction keys generalizing g with
  | nil => cases hk
  | cons k0 t ih =>
      simp only [List.foldl_cons]
      rcases List.mem_cons.mp hk with hk0 | hkt
      · subst hk0
        exact idInCell_foldl_cellAdd_mono t (cellAdd g k id) k id id
          (idInCell_cellAdd_self g k id)
      · exact ih _ hkt

theorem idInCell_foldl_cellDel_mono (keys : List (ℤ × ℤ))
    (g : List ((ℤ × ℤ) × List String)) (k : ℤ × ℤ) (id id' : String)
    (hne : id ≠ id') (h : idInCell g k id) :
    idInCell (keys.foldl (fun g key => cellDel g key id') g) k id := by
  induction keys generalizing g with
  | nil => exact h
  | cons k0 t ih =>
      simp only [List.foldl_cons]
      exact ih _ (idInCell_cellDel_mono g k k0 id id' hne h)

theorem mapGet_eq_none_of_not_mem {α : Type} (m : List (String × α)) (k : String)
    (h : k ∉ m.map Prod.fst) : mapGet m k = none := by
  induction m with
  | nil => rfl
  | cons a t ih =>
      obtain ⟨k0, v0⟩ := a
      simp only [List.map_cons, List.mem_cons] at h
      push_neg at h
      simp only [mapGet, if_neg (fun hh : k0 = k => h.1 hh.symm)]
      exact ih h.2

theorem mem_keys_of_mapGet_some {α : Type} (m : List (String × α)) (k : String)
    (v : α) (h : mapGet m k = some v) : k ∈ m.map Prod.fst := by
  by_contra hmem
  rw [mapGet_eq_none_of_not_mem m k hmem] at h
  cases h

theorem mapSet_keys_subset {α : Type} (m : List (String × α)) (k k' : String)
    (v : α) (h : k' ∈ (mapSet m k v).map Prod.fst) :
    k' ∈ m.map Prod.fst ∨ k' = k := by
  induction m with
  | nil =>
      simp [mapSet] at h
      exact Or.inr h
  | cons a t ih =>
      obtain ⟨k0, v0⟩ := a
      by_cases h0 : k0 = k
      · subst h0
        have hms : mapSet ((k0, v0) :: t) k0 v = (k0, v) :: t := by
          simp [mapSet]
        rw [hms, List.map_cons] at h
        rcases List.mem_cons.mp h with h | h
        · exact Or.inr h
        · exact Or.inl (by rw [List.map_cons]; exact List.mem_cons_of_mem _ h)
      · have hms : mapSet ((k0, v0) :: t) k v = (k0, v0) :: mapSet t k v := by
          simp [mapSet, h0]
        rw [hms, List.map_cons] at h
        rcases List.mem_cons.mp h with h | h
        · exact Or.inl (by rw [List.map_cons, h]; exact List.mem_cons_self _ _)
        · rcases ih h with h' | h'
          · exact Or.inl (by rw [List.map_cons]; exact List.mem_cons_of_mem _ h')
          · exact Or.inr h'

theorem nodup_mapSet {α : Type} (m : List (String × α)) (k : String) (v : α)
    (h : (m.map Prod.fst).Nodup) : ((mapSet m k v).map Prod.fst).Nodup := by
  induction m with
  | nil => simp [mapSet]
  | cons a t ih =>
      obtain ⟨k0, v0⟩ := a
      rw [List.map_cons, List.nodup_cons] at h
      by_cases h0 : k0 = k
      · subst h0
        have hms : mapSet ((k0, v0) :: t) k0 v = (k0, v) :: t := by
          simp [mapSet]
        rw [hms, List.map_cons, List.nodup_cons]
        exact h
      · have hms : mapSet ((k0, v0) :: t) k v = (k0, v0) :: mapSet t k v := by
          simp [mapSet, h0]
        rw [hms, List.map_cons, List.nodup_cons]
        refine ⟨fun hmem => ?_, ih h.2⟩
        rcases mapSet_keys_subset t k k0 v hmem with h' | h'
        · exact h.1 h'
        · exact h0 h'

theorem mapDel_sublist {α : Type} (m : List (String × α)) (k : String) :
    (mapDel m k).Sublist m := by
  induction m with
  | nil => simp [mapDel]
  | cons a t ih =>
      obtain ⟨k0, v0⟩ := a
      by_cases h0 : k0 = k
      · simp only [mapDel, if_pos h0]
        exact List.sublist_cons_self _ _
      · simp only [mapDel, if_neg h0]
        exact List.Sublist.cons₂ _ ih

theorem nodup_mapDel {α : Type} (m : List (String × α)) (k : String)
    (h : (m.map Prod.fst).Nodup) : ((mapDel m k).map Prod.fst).Nodup :=
  List.Nodup.sublist (List.Sublist.map Prod.fst (mapDel_sublist m k)) h

theorem mapGet_mapDel_self_nodup {α : Type} (m : List (String × α)) (k : String)
    (h : (m.map Prod.fst).Nodup) : mapGet (mapDel m k) k = none := by
  induction m with
  | nil => rfl
  | cons a t ih =>
      obtain ⟨k0, v0⟩ := a
      simp only [List.map_cons, List.nodup_cons] at h
      by_cases h0 : k0 = k
      · subst h0
        simp only [mapDel, if_pos rfl]
        exact mapGet_eq_none_of_not_mem t k0 h.1
      · simp only [mapDel, if_neg h0, mapGet, if_neg h0]
        exact ih h.2

theorem mem_insFold_mono (ids : List String) (acc : List String) (a : String)
    (h : a ∈ acc) :
    a ∈ ids.foldl (fun l i => if i ∈ l then l else l ++ [i]) acc := by
  induction ids generalizing acc with
  | nil => exact h
  | cons i0 t ih =>
      simp only [List.foldl_cons]
      by_cases hmem : i0 ∈ acc
      · rw [if_pos hmem]
        exact ih acc h
      · rw [if_neg hmem]
        exact ih _ (List.mem_append_left _ h)

theorem mem_insFold_of_mem (ids : List String) (acc : List String) (a : String)
    (h : a ∈ ids) :
    a ∈ ids.foldl (fun l i => if i ∈ l then l else l ++ [i]) acc := by
  induction ids generalizing acc with
  | nil => cases h
  | cons i0 t ih =>
      simp only [List.foldl_cons]
      rcases List.mem_cons.mp h with ha | ht
      · subst ha
        by_cases hmem : a ∈ acc
        · rw [if_pos hmem]
          exact mem_insFold_mono t acc a hmem
        · rw [if_neg hmem]
          exact mem_insFold_mono t _ a (List.mem_append_right _ (by simp))
      · by_cases hmem : i0 ∈ acc
        · rw [if_pos hmem]
          exact ih acc ht
        · rw [if_neg hmem]
          exact ih _ ht

theorem mem_nearbyFold_mono (st : EnhancedCollisionSystem)
    (keys : List (ℤ × ℤ)) (acc : List String) (a : String) (h : a ∈ acc) :
    a ∈ keys.foldl
      (fun acc key =>
        match cellGet st.spatialGrid key with
        | none => acc
        | some ids => ids.foldl (fun l i => if i ∈ l then l else l ++ [i]) acc)
      acc := by
  induction keys generalizing acc with
  | nil => exact h
  | cons k0 t ih =>
      simp only [List.foldl_cons]
      cases hc : cellGet st.spatialGrid k0 with
      | none => exact ih acc h
      | some ids => exact ih _ (mem_insFold_mono ids acc a h)

theorem mem_getNearby_of_key (st : EnhancedCollisionSystem) (p : Vec3)
    (key : ℤ × ℤ) (id : String) (hkey : key ∈ getGridKeys p)
    (hcell : idInCell st.spatialGrid key id) :
    id ∈ getNearbyObjects st p := by
  obtain ⟨ids, hget, hmem⟩ := hcell
  rw [getNearbyObjects]
  have aux : ∀ (keys : List (ℤ × ℤ)) (acc : List String), key ∈ keys →
      id ∈ keys.foldl
        (fun acc key =>
          match cellGet st.spatialGrid key with
          | none => acc
          | some ids => ids.foldl (fun l i => if i ∈ l then l else l ++ [i]) acc)
        acc := by
    intro keys
    induction keys with
    | nil => intro acc hk; cases hk
    | cons k0 t ih =>
        intro acc hk
        simp only [List.foldl_cons]
        rcases List.mem_cons.mp hk with hk0 | hkt
        · subst hk0
          rw [hget]
          exact mem_nearbyFold_mono st t _ id (mem_insFold_of_mem ids acc id hmem)
        · cases hc : cellGet st.spatialGrid k0 with
          | none => exact ih _ hkt
          | some ids' => exact ih _ hkt
  exact aux (getGridKeys p) [] hkey

theorem updateBounds_id (o : CollisionObject) : (updateBounds o).id = o.id := by
  cases h : o.type <;> simp [updateBounds, h]

theorem gridCell_mem_getGridKeys (q : Vec3) : gridCell q ∈ getGridKeys q := by
  simp [gridCell, getGridKeys]

theorem gridInvariant_empty : gridInvariant emptyCollisionSystem := by
  refine ⟨by simp [emptyCollisionSystem], ?_, ?_⟩ <;>
    intro id o h <;> cases h

theorem gridInvariant_applyCOp (st : EnhancedCollisionSystem) (op : COp)
    (h : gridInvariant st) : gridInvariant (applyCOp st op) := by
  obtain ⟨hnd, hids, hinv⟩ := h
  cases op with
  | add object =>
      simp only [applyCOp, addCollisionObject]
      refine ⟨nodup_mapSet _ _ _ hnd, ?_, ?_⟩
      · intro id o hget
        rcases mapGet_mapSet_cases _ _ _ _ _ hget with ⟨heq, hev⟩ | ⟨-, hget'⟩
        · rw [hev, heq]
        · exact hids id o hget'
      · intro id o hget
        rcases mapGet_mapSet_cases _ _ _ _ _ hget with ⟨heq, hev⟩ | ⟨-, hget'⟩
        · subst heq
          rw [hev]
          rw [updateSpatialGrid]
          exact idInCell_foldl_cellAdd_mem _ _ _ _ (gridCell_mem_getGridKeys _)
        · rw [updateSpatialGrid]
          exact idInCell_foldl_cellAdd_mono _ _ _ _ _ (hinv id o hget')
  | remove rid =>
      simp only [applyCOp, removeCollisionObject]
      cases hro : mapGet st.collisionObjects rid with
      | none => exact ⟨hnd, hids, hinv⟩
      | some robj =>
          refine ⟨nodup_mapDel _ _ hnd, ?_, ?_⟩
          · intro id o hget
            have hne : id ≠ rid := by
              intro hh
              subst hh
              rw [mapGet_mapDel_self_nodup _ _ hnd] at hget
              cases hget
            rw [mapGet_mapDel_ne _ _ _ hne] at hget
            exact hids id o hget
          · intro id o hget
            have hne : id ≠ rid := by
              intro hh
              subst hh
              rw [mapGet_mapDel_self_nodup _ _ hnd] at hget
              cases hget
            rw [mapGet_mapDel_ne _ _ _ hne] at hget
            simp only [removeFromSpatialGrid]
            have hrid : robj.id = rid := hids rid robj hro
            exact idInCell_foldl_cellDel_mono _ _ _ _ _
              (by rw [hrid]; exact hne) (hinv id o hget)
  | update uid position =>
      simp only [applyCOp, updateCollisionObject]
      cases huo : mapGet st.collisionObjects uid with
      | none => exact ⟨hnd, hids, hinv⟩
      | some object =>
          refine ⟨nodup_mapSet _ _ _ hnd, ?_, ?_⟩
          · intro id o hget
            rcases mapGet_mapSet_cases _ _ _ _ _ hget with ⟨heq, hev⟩ | ⟨-, hget'⟩
            · rw [hev, updateBounds_id]
              simp only
              rw [hids uid object huo, heq]
            · exact hids id o hget'
          · intro id o hget
            rcases mapGet_mapSet_cases _ _ _ _ _ hget with ⟨heq, hev⟩ | ⟨hne, hget'⟩
            · subst heq
              rw [hev]
              simp only [updateSpatialGrid, removeFromSpatialGrid, updateBounds_id]
              have huid : object.id = id := hids id object huo
              simp only [huid]
              exact idInCell_foldl_cellAdd_mem _ _ _ _ (gridCell_mem_getGridKeys _)
            · simp only [updateSpatialGrid, removeFromSpatialGrid]
              apply idInCell_foldl_cellAdd_mono
              have huid : object.id = uid := hids uid object huo
              exact idInCell_foldl_cellDel_mono _ _ _ _ _
                (by rw [huid]; exact hne) (hinv id o hget')

theorem gridInvariant_applyCOps (ops : List COp) :
    gridInvariant (applyCOps ops) := by
  have aux : ∀ (l : List COp) (st : EnhancedCollisionSystem), gridInvariant st →
      gridInvariant (l.foldl applyCOp st) := by
    intro l
    induction l with
    | nil => intro st h; exact h
    | cons op t ih =>
        intro st h
        simp only [List.foldl_cons]
        exact ih _ (gridInvariant_applyCOp st op h)
  exact aux ops emptyCollisionSystem gridInvariant_empty

theorem abs_sub_x_le_distanceTo (a b : Vec3) : |a.x - b.x| ≤ a.distanceTo b := by
  simp only [Vec3.distanceTo, Vec3.length, Vec3.lengthSq, Vec3.sub]
  rw [show |a.x - b.x| = Real.sqrt ((a.x - b.x) ^ 2) from
    (Real.sqrt_sq_eq_abs _).symm]
  apply Real.sqrt_le_sqrt
  nlinarith [sq_nonneg (a.y - b.y), sq_nonneg (a.z - b.z)]

theorem abs_sub_z_le_distanceTo (a b : Vec3) : |a.z - b.z| ≤ a.distanceTo b := by
  simp only [Vec3.distanceTo, Vec3.length, Vec3.lengthSq, Vec3.sub]
  rw [show |a.z - b.z| = Real.sqrt ((a.z - b.z) ^ 2) from
    (Real.sqrt_sq_eq_abs _).symm]
  apply Real.sqrt_le_sqrt
  nlinarith [sq_nonneg (a.y - b.y), sq_nonneg (a.x - b.x)]

theorem floor_adjacent (x y : ℝ) (h : |x - y| ≤ gridSize) :
    Int.floor (y / gridSize) - 1 ≤ Int.floor (x / gridSize) ∧
    Int.floor (x / gridSize) ≤ Int.floor (y / gridSize) + 1 := by
  rw [gridSize] at h ⊢
  rw [abs_le] at h
  have h32 : (0 : ℝ) < 32 := by norm_num
  have hy : y / 32 * 32 = y := div_mul_cancel₀ y (by norm_num)
  constructor
  · have hle : y / 32 - 1 ≤ x / 32 := by
      rw [sub_le_iff_le_add, div_add' _ _ _ (by norm_num : (32:ℝ) ≠ 0),
        div_le_div_iff h32 h32]
      nlinarith [h.1]
    calc Int.floor (y / 32) - 1 = Int.floor (y / 32 - 1) := by
          rw [show (1 : ℤ) = ((1 : ℤ) : ℤ) from rfl]
          rw [← Int.floor_sub_int (y / 32) 1]
          norm_num
      _ ≤ Int.floor (x / 32) := Int.floor_le_floor hle
  · have hle : x / 32 ≤ y / 32 + 1 := by
      rw [div_add' _ _ _ (by norm_num : (32:ℝ) ≠ 0), div_le_div_iff h32 h32]
      nlinarith [h.2]
    calc Int.floor (x / 32) ≤ Int.floor (y / 32 + 1) := Int.floor_le_floor hle
      _ = Int.floor (y / 32) + 1 := by
          rw [show (1 : ℝ) = ((1 : ℤ) : ℝ) by norm_num, Int.floor_add_int]

/-- C3: after any sequence of public insert/update/remove operations, the
spatial grid's neighborhood query at a point `p` returns a superset of the
brute-force set of stored objects whose position lies within one cell size
(`gridSize = 32`) of `p`. -/
theorem queryNeighborhood_superset (ops : List COp) (p : Vec3) (id : String)
    (o : CollisionObject)
    (hlookup : mapGet (applyCOps ops).collisionObjects id = some o)
    (hdist : p.distanceTo o.position ≤ gridSize) :
    id ∈ getNearbyObjects (applyCOps ops) p := by
  obtain ⟨-, -, hinv⟩ := gridInvariant_applyCOps ops
  have hcell := hinv id o hlookup
  have hdx : |p.x - o.position.x| ≤ gridSize :=
    le_trans (abs_sub_x_le_distanceTo p o.position) hdist
  have hdz : |p.z - o.position.z| ≤ gridSize :=
    le_trans (abs_sub_z_le_distanceTo p o.position) hdist
  have hax := floor_adjacent p.x o.position.x hdx
  have haz := floor_adjacent p.z o.position.z hdz
  have hx3 : Int.floor (o.position.x / gridSize) = Int.floor (p.x / gridSize) - 1 ∨
      Int.floor (o.position.x / gridSize) = Int.floor (p.x / gridSize) ∨
      Int.floor (o.position.x / gridSize) = Int.floor (p.x / gridSize) + 1 := by
    omega
  have hz3 : Int.floor (o.position.z / gridSize) = Int.floor (p.z / gridSize) - 1 ∨
      Int.floor (o.position.z / gridSize) = Int.floor (p.z / gridSize) ∨
      Int.floor (o.position.z / gridSize) = Int.floor (p.z / gridSize) + 1 := by
    omega
  have hkey : gridCell o.position ∈ getGridKeys p := by
    simp only [gridCell, getGridKeys]
    rcases hx3 with hx | hx | hx <;> rcases hz3 with hz | hz | hz <;>
      simp [hx, hz]
  exact mem_getNearby_of_key _ _ _ _ hkey hcell

theorem queryNeighborhood_superset_witness :
    (mapGet (applyCOps [COp.add originSphereObject]).collisionObjects "o1" =
      some originSphereObject ∧
     Vec3.distanceTo ⟨0, 0, 0⟩ originSphereObject.position ≤ gridSize) ∧
    "o1" ∈ getNearbyObjects (applyCOps [COp.add originSphereObject]) ⟨0, 0, 0⟩ :=
  ⟨⟨rfl, by
      rw [show originSphereObject.position = (⟨0, 0, 0⟩ : Vec3) from rfl,
        dist_x_axis_abs, gridSize]
      norm_num⟩,
   queryNeighborhood_superset [COp.add originSphereObject] ⟨0, 0, 0⟩ "o1"
     originSphereObject rfl
     (by
       rw [show originSphereObject.position = (⟨0, 0, 0⟩ : Vec3) from rfl,
         dist_x_axis_abs, gridSize]
       norm_num)⟩
